import Mathlib

/-!
UFO game: a shallow embedding of `src/game.js`

The simulation core of the game (entity update rules, collision pass, boss
state machine, frame tick, reset) is translated function by function into
Lean definitions over an explicit `State` record.

Conventions of the embedding:

* JavaScript numbers that hold coordinates are modelled as exact rationals
  (`ℚ`); counters and scores are natural numbers.  Rounding of IEEE doubles is
  not modelled.
* The module-level variables `state`, `player`, `lasers`, `invaders`,
  `explosions`, `keys` and the canvas size are the fields of `State`.
* `keys` is only ever read at `'ArrowLeft'` and `'ArrowRight'`; only those two
  entries are kept.
* Rendering calls (`ctx.*`, `draw*`) have no effect on the game state and are
  dropped.  Audio plays are recorded in the `cues` log.
* The browser scheduler is explicit: outstanding `requestAnimationFrame`
  requests, active `setInterval` timers and outstanding `setTimeout`
  callbacks are fields of `State`.
* A backwards `for (let i = n - 1; i >= 0; i--)` loop is `revLoop body n`.
-/

namespace UfoGame

/-! ## Configuration (`CONFIG`) -/

def playerWidth : ℚ := 60
def playerHeight : ℚ := 60
def playerSpeed : ℚ := 5
def invaderWidth : ℚ := 75
def invaderHeight : ℚ := 50
def invaderSpeedX : ℚ := 2
def invaderSpeedY : ℚ := 1
def invaderAnimSpeed : ℕ := 80
def invaderImages : ℕ := 3
def explosionSpriteW : ℚ := 64
def explosionSpriteH : ℚ := 64
def explosionFrameCount : ℕ := 8
def explosionAnimSpeed : ℕ := 4

/-! ## Entities -/

/-- Audio clips of `sounds`; a play is logged in `State.cues`. -/
inductive Cue where
  | bump
  | shoot
  | explosion
  | chime2
  | gameover
deriving DecidableEq, Repr

/-- The object literal built by `shoot`. -/
structure Laser where
  x : ℚ
  y : ℚ
  width : ℚ
  height : ℚ
  speed : ℚ
deriving DecidableEq, Repr

/-- Fields of `class Invader`. -/
structure Invader where
  x : ℚ
  y : ℚ
  width : ℚ
  height : ℚ
  speedX : ℚ
  speedY : ℚ
  frameIndex : ℕ
deriving DecidableEq, Repr

/-- Fields of `class Explosion`. -/
structure Explosion where
  x : ℚ
  y : ℚ
  frameIndex : ℕ
  timer : ℕ
  scale : ℕ
deriving DecidableEq, Repr

/-- Fields of `class Boss` (the image handle is kept in `State.bossImg`);
`hitCount` is `none` while the property is still undefined. -/
structure Boss where
  width : ℚ
  height : ℚ
  x : ℚ
  y : ℚ
  targetY : ℚ
  arrived : Bool
  hitCount : Option ℕ
deriving DecidableEq, Repr

/-- The `player` object. -/
structure Player where
  x : ℚ
  y : ℚ
  width : ℚ
  height : ℚ
  speed : ℚ
deriving DecidableEq, Repr

/-- What the code reads of the boss image resource. -/
structure Image where
  complete : Bool
  naturalWidth : ℕ
  naturalHeight : ℕ
deriving DecidableEq, Repr

/-- All mutable data of the closure in `game.js`, the canvas size and the
browser scheduler. -/
structure State where
  canvasWidth : ℚ
  canvasHeight : ℚ
  bossImg : Image
  frameCount : ℕ
  score : ℕ
  invaderScore : ℕ
  isOver : Bool
  bossSpawned : Bool
  boss : Option Boss
  animationId : Option ℕ
  spawnIntervalId : Option ℕ
  player : Player
  lasers : List Laser
  invaders : List Invader
  explosions : List Explosion
  keyLeft : Bool
  keyRight : Bool
  nextHandle : ℕ
  frameRequests : List ℕ
  intervals : List ℕ
  defeatTimeouts : ℕ
  cues : List Cue
deriving DecidableEq, Repr

/-! ## Helpers -/

/-- Backwards index loop: runs `body (n-1)`, ..., `body 0` in that order. -/
def revLoop {σ : Type} (body : ℕ → σ → σ) : ℕ → σ → σ
  | 0, s => s
  | n + 1, s => revLoop body n (body n s)

/-- The four-inequality bounding-box test written inline in the source:
`a.x < b.x + b.width && a.x + a.width > b.x && a.y < b.y + b.height &&
a.y + a.height > b.y`. -/
def aabb (ax ay aw ah bx by_ bw bh : ℚ) : Bool :=
  decide (ax < bx + bw) && decide (ax + aw > bx) &&
    decide (ay < by_ + bh) && decide (ay + ah > by_)

def laserHitsInvader (l : Laser) (inv : Invader) : Bool :=
  aabb l.x l.y l.width l.height inv.x inv.y inv.width inv.height

def laserHitsBoss (l : Laser) (b : Boss) : Bool :=
  aabb l.x l.y l.width l.height b.x b.y b.width b.height

def playerHitsInvader (p : Player) (inv : Invader) : Bool :=
  aabb p.x p.y p.width p.height inv.x inv.y inv.width inv.height

def playerHitsBoss (p : Player) (b : Boss) : Bool :=
  aabb p.x p.y p.width p.height b.x b.y b.width b.height

/-- Logs `sounds.<c>.play()`. -/
def play (c : Cue) (s : State) : State :=
  { s with cues := s.cues ++ [c] }

/-- Models `cancelAnimationFrame(state.animationId)`. -/
def cancelAnimationFrame (s : State) : State :=
  match s.animationId with
  | some id => { s with frameRequests := s.frameRequests.erase id }
  | none => s

/-- Models `clearInterval(state.spawnIntervalId)`. -/
def clearInterval (s : State) : State :=
  match s.spawnIntervalId with
  | some id => { s with intervals := s.intervals.erase id }
  | none => s

/-- Models `state.animationId = requestAnimationFrame(loop)`. -/
def requestAnimationFrame (s : State) : State :=
  { s with
    animationId := some s.nextHandle
    frameRequests := s.frameRequests ++ [s.nextHandle]
    nextHandle := s.nextHandle + 1 }

/-- Models `state.spawnIntervalId = setInterval(spawnInvader, ...)`. -/
def setSpawnInterval (s : State) : State :=
  { s with
    spawnIntervalId := some s.nextHandle
    intervals := s.intervals ++ [s.nextHandle]
    nextHandle := s.nextHandle + 1 }

/-! ## Entity methods -/

/-- `new Invader(x, y)`. -/
def Invader.create (x y : ℚ) : Invader :=
  { x := x, y := y, width := invaderWidth, height := invaderHeight,
    speedX := invaderSpeedX, speedY := invaderSpeedY, frameIndex := 0 }

/-- `Invader.update(canvasWidth)`. -/
def Invader.update (inv : Invader) (canvasWidth : ℚ) : Invader :=
  let x := inv.x + inv.speedX
  let y := inv.y + inv.speedY
  if x + inv.width > canvasWidth ∨ x < 0 then
    { inv with x := x, y := y, speedX := inv.speedX * -1 }
  else
    { inv with x := x, y := y }

/-- `new Explosion(x, y)`. -/
def Explosion.create (x y : ℚ) : Explosion :=
  { x := x, y := y, frameIndex := 0, timer := 0, scale := 1 }

/-- `Explosion.update(animSpeed)`. -/
def Explosion.update (ex : Explosion) (animSpeed : ℕ) : Explosion :=
  let timer := ex.timer + 1
  if timer % animSpeed = 0 then
    { ex with timer := timer, frameIndex := ex.frameIndex + 1 }
  else
    { ex with timer := timer }

/-- `new Boss(canvasWidth, canvasHeight, img)`. -/
def Boss.create (canvasWidth canvasHeight : ℚ) (img : Image) : Boss :=
  let width : ℚ := ⌊canvasWidth / 3⌋
  let height : ℚ :=
    if img.complete ∧ img.naturalWidth ≠ 0 then
      ⌊width * ((img.naturalHeight : ℚ) / (img.naturalWidth : ℚ))⌋
    else
      ⌊width * (6 / 10)⌋
  { width := width, height := height,
    x := (canvasWidth - width) / 2,
    y := -height,
    targetY := ⌊canvasHeight * (12 / 100)⌋,
    arrived := false,
    hitCount := none }

/-- `Boss.update(player, canvasWidth)`. -/
def Boss.update (b : Boss) (player : Player) (canvasWidth : ℚ) : Boss :=
  if ¬ b.arrived then
    let y := b.y + 3
    if y ≥ b.targetY then
      { b with y := b.targetY, arrived := true }
    else
      { b with y := y }
  else
    let playerCenterX := player.x + player.width / 2
    let playerCenterY := player.y + player.height / 2
    let bossCenterX := b.x + b.width / 2
    let bossCenterY := b.y + b.height / 2
    let diffX := playerCenterX - bossCenterX
    let diffY := playerCenterY - bossCenterY
    let x := b.x + diffX * (1 / 100)
    let y := b.y + diffY * (1 / 100)
    let x1 := if x < 0 then 0 else x
    let x2 := if x1 + b.width > canvasWidth then canvasWidth - b.width else x1
    { b with x := x2, y := y }

/-! ## Input handling -/

/-- The `keydown` listener. -/
def keydown (key : String) (s : State) : State :=
  if ¬ s.isOver then
    if key = "ArrowLeft" then { s with keyLeft := true }
    else if key = "ArrowRight" then { s with keyRight := true }
    else s
  else s

/-- `clampPlayerX()`. -/
def clampPlayerX (s : State) : State :=
  let oldX := s.player.x
  let x1 := if s.player.x < 0 then 0 else s.player.x
  let x2 := if x1 + s.player.width > s.canvasWidth then s.canvasWidth - s.player.width else x1
  let s1 := { s with player := { s.player with x := x2 } }
  if oldX ≠ x2 then play Cue.bump s1 else s1

/-- `handlePlayerInput()`. -/
def handlePlayerInput (s : State) : State :=
  let s1 := if s.keyLeft then { s with player := { s.player with x := s.player.x - s.player.speed } } else s
  let s2 := if s1.keyRight then { s1 with player := { s1.player with x := s1.player.x + s1.player.speed } } else s1
  clampPlayerX s2

/-- `shoot()`. -/
def shoot (s : State) : State :=
  let laser : Laser :=
    { x := s.player.x + s.player.width / 2, y := s.player.y, width := 5, height := 15, speed := 7 }
  play Cue.shoot { s with lasers := s.lasers ++ [laser] }

/-- The `keyup` listener without its `reset()` branch (`reset` is defined
below; the full listener is `keyup`). -/
def keyupPlaying (key : String) (s : State) : State :=
  let s1 :=
    if key = "ArrowLeft" then { s with keyLeft := false }
    else if key = "ArrowRight" then { s with keyRight := false }
    else s
  if key = " " then shoot s1 else s1

/-! ## Per-frame updates (`drawAll`) -/

/-- Body of the loop in `updateAndDrawLasers()` at index `i`. -/
def laserBody (i : ℕ) (s : State) : State :=
  match s.lasers[i]? with
  | none => s
  | some l =>
    let l1 : Laser := { l with y := l.y - l.speed }
    let s1 := { s with lasers := s.lasers.set i l1 }
    if l1.y < 0 then { s1 with lasers := s1.lasers.eraseIdx i } else s1

/-- `updateAndDrawLasers()`. -/
def updateAndDrawLasers (s : State) : State :=
  revLoop laserBody s.lasers.length s

/-- `spawnInvader()`; `r` is the value of `Math.random()`. -/
def spawnInvader (r : ℚ) (s : State) : State :=
  if s.isOver then s
  else
    let x := r * (s.canvasWidth - invaderWidth)
    let y := -invaderHeight
    { s with invaders := s.invaders ++ [Invader.create x y] }

/-- Body of the loop in `updateAndDrawInvaders()` at index `i`. -/
def invaderBody (frame : ℕ) (i : ℕ) (s : State) : State :=
  match s.invaders[i]? with
  | none => s
  | some inv =>
    let inv1 := Invader.update { inv with frameIndex := frame } s.canvasWidth
    let s1 := { s with invaders := s.invaders.set i inv1 }
    if inv1.y > s1.canvasHeight then
      let s2 := { s1 with invaderScore := s1.invaderScore + (inv1.frameIndex + 1) }
      let s3 := play Cue.chime2 s2
      { s3 with invaders := s3.invaders.eraseIdx i }
    else s1

/-- `updateAndDrawInvaders()`. -/
def updateAndDrawInvaders (s : State) : State :=
  let frame := (s.frameCount / invaderAnimSpeed) % invaderImages
  revLoop (invaderBody frame) s.invaders.length s

/-- Body of the loop in `updateAndDrawExplosions()` at index `i`. -/
def explosionBody (i : ℕ) (s : State) : State :=
  match s.explosions[i]? with
  | none => s
  | some ex =>
    let ex1 := ex.update explosionAnimSpeed
    let s1 := { s with explosions := s.explosions.set i ex1 }
    if ex1.frameIndex ≥ explosionFrameCount then
      { s1 with explosions := s1.explosions.eraseIdx i }
    else s1

/-- `updateAndDrawExplosions()`. -/
def updateAndDrawExplosions (s : State) : State :=
  revLoop explosionBody s.explosions.length s

/-- The state-changing part of the game-over handling shared by
`updateAndDrawBoss` and the deferred boss-defeat callback:
`state.isOver = true; cancelAnimationFrame(...); sounds.gameover.play();
clearInterval(...); drawGameOver()`. -/
def enterOver (s : State) : State :=
  let s1 := { s with isOver := true }
  let s2 := cancelAnimationFrame s1
  let s3 := play Cue.gameover s2
  clearInterval s3

/-- `updateAndDrawBoss()`. -/
def updateAndDrawBoss (s : State) : State :=
  if ¬ s.bossSpawned then s
  else
    match s.boss with
    | none => s
    | some b0 =>
      let b := b0.update s.player s.canvasWidth
      let s1 := { s with boss := some b }
      if playerHitsBoss s1.player b then enterOver s1 else s1

/-- The callback passed to `setTimeout` in `checkCollisions`. -/
def bossDefeatCallback (s : State) : State :=
  enterOver s

/-! ## Collision pass -/

/-- The inner loop of `checkCollisions`: scans `invaders[j-1]`, ...,
`invaders[0]` and stops at the first invader the laser overlaps. -/
def findHitInvader (l : Laser) (invs : List Invader) : ℕ → Option (ℕ × Invader)
  | 0 => none
  | j + 1 =>
    match invs[j]? with
    | some inv => if laserHitsInvader l inv then some (j, inv) else findHitInvader l invs j
    | none => findHitInvader l invs j

/-- The `lasers vs invaders` part of the outer loop body at index `i`, for the
laser `l = lasers[i]`. -/
def hitInvader (i : ℕ) (l : Laser) (s : State) : State :=
  match findHitInvader l s.invaders s.invaders.length with
  | some (j, inv) =>
    let s1 := { s with score := s.score + (inv.frameIndex + 1) }
    let s2 := { s1 with explosions := s1.explosions ++ [Explosion.create inv.x inv.y] }
    let s3 := play Cue.explosion s2
    let s4 := { s3 with invaders := s3.invaders.eraseIdx j }
    { s4 with lasers := s4.lasers.eraseIdx i }
  | none => s

/-- The `if (b.hitCount > 9)` block: boss destruction. -/
def destroyBoss (b : Boss) (s : State) : State :=
  let ex : Explosion :=
    { Explosion.create (b.x + b.width / 2 - explosionSpriteW / 2)
        (b.y + b.height / 2 - explosionSpriteH / 2) with scale := 3 }
  let s1 := { s with explosions := s.explosions ++ [ex] }
  let s2 := { s1 with score := s1.score + 100 }
  let s3 := play Cue.explosion s2
  let s4 := { s3 with boss := none, bossSpawned := false }
  { s4 with defeatTimeouts := s4.defeatTimeouts + 1 }

/-- The `lasers vs boss` part of the outer loop body at index `i`, for the
laser `l` read at the top of the body. -/
def hitBoss (i : ℕ) (l : Laser) (s : State) : State :=
  if s.bossSpawned then
    match s.boss with
    | some b =>
      if laserHitsBoss l b then
        let b1 : Boss := { b with hitCount := some (b.hitCount.getD 0 + 1) }
        let s1 := { s with boss := some b1 }
        let s2 := { s1 with lasers := s1.lasers.eraseIdx i }
        let s3 := play Cue.explosion s2
        if b1.hitCount.getD 0 > 9 then destroyBoss b1 s3 else s3
      else s
    | none => s
  else s

/-- Body of the outer loop of `checkCollisions` at index `i`. -/
def collideLaser (i : ℕ) (s : State) : State :=
  match s.lasers[i]? with
  | none => s
  | some l => hitBoss i l (hitInvader i l s)

/-- The `invaders vs player` loop: scans `invaders[i-1]`, ..., `invaders[0]`
and breaks at the first overlap. -/
def playerCollides (p : Player) (invs : List Invader) : ℕ → Bool
  | 0 => false
  | i + 1 =>
    match invs[i]? with
    | some inv => if playerHitsInvader p inv then true else playerCollides p invs i
    | none => playerCollides p invs i

/-- `checkCollisions()`. -/
def checkCollisions (s : State) : State :=
  let s1 := revLoop collideLaser s.lasers.length s
  if playerCollides s1.player s1.invaders s1.invaders.length then
    { s1 with isOver := true }
  else s1

/-! ## Frame tick, reset, resize -/

/-- `drawAll()`. -/
def drawAll (s : State) : State :=
  updateAndDrawExplosions (updateAndDrawInvaders (updateAndDrawLasers s))

/-- The boss-spawn step of `loop()`. -/
def spawnBoss (s : State) : State :=
  if ¬ s.bossSpawned ∧ s.score > 9 then
    { s with bossSpawned := true,
             boss := some (Boss.create s.canvasWidth s.canvasHeight s.bossImg) }
  else s

/-- `loop()`. -/
def loop (s : State) : State :=
  if s.isOver then
    clearInterval (play Cue.gameover (cancelAnimationFrame s))
  else
    let s1 := { s with frameCount := s.frameCount + 1 }
    let s2 := handlePlayerInput s1
    let s3 := checkCollisions s2
    let s4 := spawnBoss s3
    let s5 := drawAll s4
    let s6 := updateAndDrawBoss s5
    requestAnimationFrame s6

/-- `reset()`. -/
def reset (s : State) : State :=
  let s1 := { s with
    isOver := false, score := 0, invaderScore := 0,
    lasers := [], invaders := [], explosions := [],
    bossSpawned := false, boss := none }
  let s2 := { s1 with player := { s1.player with x := (s1.canvasWidth - s1.player.width) / 2 } }
  let s3 := { s2 with player := { s2.player with y := s2.canvasHeight - s2.player.height - 20 } }
  let s4 := setSpawnInterval s3
  loop s4

/-- The `keyup` listener. -/
def keyup (key : String) (s : State) : State :=
  if ¬ s.isOver then keyupPlaying key s
  else if key = "Enter" then reset s
  else s

/-- `onResize()`; `w`, `h` are `window.innerWidth`, `window.innerHeight`. -/
def onResize (w h : ℚ) (s : State) : State :=
  let s1 := { s with canvasWidth := w, canvasHeight := h }
  let s2 := { s1 with player := { s1.player with x := (s1.canvasWidth - s1.player.width) / 2 } }
  let s3 := { s2 with player := { s2.player with y := s2.canvasHeight - s2.player.height - 20 } }
  let s4 :=
    match s3.boss with
    | some b =>
      let width : ℚ := ⌊s3.canvasWidth / 3⌋
      let height : ℚ :=
        if s3.bossImg.complete ∧ s3.bossImg.naturalWidth ≠ 0 then
          ⌊width * ((s3.bossImg.naturalHeight : ℚ) / (s3.bossImg.naturalWidth : ℚ))⌋
        else b.height
      { s3 with boss := some { b with
          width := width, height := height,
          x := min b.x (s3.canvasWidth - width),
          targetY := ⌊s3.canvasHeight * (12 / 100)⌋ } }
    | none => s3
  if ¬ s4.isOver then drawAll s4 else s4

/-- A frame request `id` fires: the browser drops the request and calls
`loop`. -/
def fireFrame (id : ℕ) (s : State) : State :=
  if id ∈ s.frameRequests then
    loop { s with frameRequests := s.frameRequests.erase id }
  else s

/-- The spawn interval fires (if one is active) with random draw `r`. -/
def fireSpawn (r : ℚ) (s : State) : State :=
  if s.intervals = [] then s else spawnInvader r s

/-- An outstanding boss-defeat timeout fires. -/
def fireDefeatTimeout (s : State) : State :=
  if s.defeatTimeouts = 0 then s
  else bossDefeatCallback { s with defeatTimeouts := s.defeatTimeouts - 1 }

/-! ## Derived definitions used in the statements -/

/-- The horizontal position after the two key shifts of `handlePlayerInput`,
before `clampPlayerX` runs (the value `clampPlayerX` reads as `oldX`). -/
def shiftedX (s : State) : ℚ :=
  (if s.keyLeft then s.player.x - s.player.speed else s.player.x) +
    (if s.keyRight then s.player.speed else 0)

/-- The horizontal position `clampPlayerX` leaves, as a function of the state
before `handlePlayerInput`. -/
def clampedX (s : State) : ℚ :=
  let x1 := if shiftedX s < 0 then 0 else shiftedX s
  if x1 + s.player.width > s.canvasWidth then s.canvasWidth - s.player.width else x1

/-- The state `reset` hands to `loop`: everything cleared, player at home,
spawn interval restarted. -/
def resetCore (s : State) : State :=
  setSpawnInterval { s with
    isOver := false, score := 0, invaderScore := 0,
    lasers := [], invaders := [], explosions := [],
    bossSpawned := false, boss := none,
    player := { s.player with x := (s.canvasWidth - s.player.width) / 2,
                              y := s.canvasHeight - s.player.height - 20 } }

/-- A run of `Boss.update` calls, one per entry of `inputs` (the player and
the canvas width seen by each call). -/
def Boss.updates (b : Boss) (inputs : List (Player × ℚ)) : Boss :=
  inputs.foldl (fun b i => b.update i.1 i.2) b

/-- Number of lasers among the first `n` of the list whose box overlaps the
boss `b`. -/
def bossHits (b : Boss) (lasers : List Laser) (n : ℕ) : ℕ :=
  ((lasers.take n).filter (fun l => laserHitsBoss l b)).length

/-- Specification of one projectile against the invaders still present, in the
words of the claim: the projectile takes the first overlapping invader in the
scan from the last element to the first, i.e. the overlapping invader nearest
the end of the list.  Returns that invader and the list without it, or `none`
when the projectile overlaps no invader. -/
def specLaser (l : Laser) : List Invader → Option (Invader × List Invader)
  | [] => none
  | inv :: rest =>
    match specLaser l rest with
    | some (hit, rest1) => some (hit, inv :: rest1)
    | none => if laserHitsInvader l inv then some (inv, rest) else none

/-- Outcome of a specified projectile-versus-invader pass: the projectiles and
invaders that remain, and the points gained by the player. -/
structure PassResult where
  lasers : List Laser
  invaders : List Invader
  gain : ℕ
deriving DecidableEq, Repr

/-- Specification of the pass over projectiles listed in processing order: a
projectile that overlaps an invader still present is removed together with the
invader `specLaser` selects and scores that invader's `frameIndex + 1`; a
projectile that overlaps none is kept and scores nothing. -/
def specPassRev : List Laser → List Invader → PassResult
  | [], invs => { lasers := [], invaders := invs, gain := 0 }
  | l :: ls, invs =>
    match specLaser l invs with
    | some (hit, invs1) =>
      let r := specPassRev ls invs1
      { lasers := r.lasers, invaders := r.invaders, gain := r.gain + (hit.frameIndex + 1) }
    | none =>
      let r := specPassRev ls invs
      { lasers := r.lasers ++ [l], invaders := r.invaders, gain := r.gain }

/-- Specification of the pass: the projectiles are taken from the last to the
first, as the loop of `checkCollisions` does. -/
def specPass (lasers : List Laser) (invs : List Invader) : PassResult :=
  specPassRev lasers.reverse invs

/-- Sum of `frameIndex + 1` over a list of invaders. -/
def invaderPoints (invs : List Invader) : ℕ :=
  (invs.map (fun inv => inv.frameIndex + 1)).sum

/-- One laser's move in `updateAndDrawLasers`: `l.y -= l.speed`. -/
def Laser.move (l : Laser) : Laser := { l with y := l.y - l.speed }

/-- One invader's step in `updateAndDrawInvaders`: `inv.frameIndex = frame;
inv.update(canvas.width)`. -/
def Invader.step (frame : ℕ) (w : ℚ) (inv : Invader) : Invader :=
  Invader.update { inv with frameIndex := frame } w

/-- One `updateAndDrawExplosions` pass on the list of explosions: every
explosion is updated, those whose frame index reached the frame count are
dropped. -/
def stepExplosions (exs : List Explosion) : List Explosion :=
  (exs.map (fun ex => ex.update explosionAnimSpeed)).filter
    (fun ex => decide (ex.frameIndex < explosionFrameCount))

/-- The state a running frame tick has reached after its collision pass:
`state.frameCount++; handlePlayerInput(); checkCollisions();`. -/
def afterCollisions (s : State) : State :=
  checkCollisions (handlePlayerInput { s with frameCount := s.frameCount + 1 })

/-! ## Concrete states -/

/-- The `player` object at its home position on an 800 x 600 field. -/
def homePlayer : Player := { x := 370, y := 520, width := 60, height := 60, speed := 5 }

/-- A boss image that has not finished loading. -/
def noImage : Image := { complete := false, naturalWidth := 0, naturalHeight := 0 }

/-- A running session on an 800 x 600 field with no entities, as a frame
callback finds it (its own frame request has been consumed). -/
def sampleState : State :=
  { canvasWidth := 800, canvasHeight := 600, bossImg := noImage,
    frameCount := 820, score := 0, invaderScore := 0,
    isOver := false, bossSpawned := false, boss := none,
    animationId := some 7, spawnIntervalId := some 0,
    player := homePlayer,
    lasers := [], invaders := [], explosions := [],
    keyLeft := false, keyRight := false,
    nextHandle := 8, frameRequests := [], intervals := [0],
    defeatTimeouts := 0, cues := [] }

/-- A finished session in which `keys['ArrowLeft']` is still true: the key was
down when the game ended, and `keyup` does not clear keys while over. -/
def overHeldLeft : State :=
  { sampleState with isOver := true, keyLeft := true, frameRequests := [], intervals := [] }

/-- The player at the left field edge with the left key held. -/
def atLeftEdge : State :=
  { sampleState with player := { homePlayer with x := 0 }, keyLeft := true }

/-- A descending boss two units above its target height. -/
def descendingBoss : Boss :=
  { width := 266, height := 159, x := 267, y := 70, targetY := 72, arrived := false,
    hitCount := none }

/-- A finished session in which the boss was defeated and the game then ended
by a collision before the deferred boss-defeat callback fired: one callback is
still outstanding. -/
def overStaleTimeout : State :=
  { sampleState with
    isOver := true, score := 112, frameCount := 1000, defeatTimeouts := 1,
    frameRequests := [], intervals := [] }

/-- A boss still sliding in (Descending), partly in view, never hit so far. -/
def slidingBoss : Boss :=
  { width := 266, height := 159, x := 267, y := -60, targetY := 72, arrived := false,
    hitCount := none }

/-- A laser fired from the home position that has reached the top of the
field. -/
def topLaser : Laser := { x := 400, y := 9, width := 5, height := 15, speed := 7 }

/-- A running session with a Descending boss and one laser inside its box. -/
def descentHit : State :=
  { sampleState with
    score := 12, bossSpawned := true, boss := some slidingBoss, lasers := [topLaser] }

/-- A Homing boss that has just arrived at its target height and has been hit
nine times. -/
def woundedBoss : Boss :=
  { width := 266, height := 159, x := 267, y := 72, targetY := 72, arrived := true,
    hitCount := some 9 }

/-- A laser fired from the home position, 46 frames later. -/
def midLaser : Laser := { x := 400, y := 198, width := 5, height := 15, speed := 7 }

/-- A running session: the boss has nine hits and one laser is inside its
box. -/
def bossFight : State :=
  { sampleState with
    score := 12, bossSpawned := true, boss := some woundedBoss, lasers := [midLaser] }

/-- Two overlapping invaders, one laser inside both boxes, one laser far
below them; no boss. -/
def volley : State :=
  { sampleState with
    lasers := [midLaser, { x := 400, y := 450, width := 5, height := 15, speed := 7 }],
    invaders :=
      [{ x := 380, y := 190, width := 75, height := 50, speedX := 2, speedY := 1,
         frameIndex := 1 },
       { x := 390, y := 180, width := 75, height := 50, speedX := -2, speedY := 1,
         frameIndex := 1 }] }

/-- A laser fired from the home position, ten frames later. -/
def lowLaser : Laser := { x := 400, y := 450, width := 5, height := 15, speed := 7 }

/-- A Homing boss with three hits so far. -/
def homingBoss : Boss := { woundedBoss with hitCount := some 3 }

/-- An invader passing in front of the boss. -/
def crossingInvader : Invader :=
  { x := 380, y := 190, width := 75, height := 50, speedX := 2, speedY := 1, frameIndex := 1 }

/-- A running session: the older laser (index 0) is inside the boxes of both
an invader and the boss, the newer laser (index 1) is far below both. -/
def crossfire : State :=
  { sampleState with
    score := 12, bossSpawned := true, boss := some homingBoss,
    lasers := [midLaser, lowLaser], invaders := [crossingInvader] }

/-- The boss `new Boss(800, 600, img)` builds when the image is not loaded,
after its first `update`. -/
def freshBoss : Boss :=
  { width := 266, height := 159, x := 267, y := -156, targetY := 72, arrived := false,
    hitCount := none }

/-- An invader left beyond the right edge after the field was narrowed from
800 to 400 by a resize. -/
def strandedInvader : Invader :=
  { x := 700, y := 100, width := 75, height := 50, speedX := 2, speedY := 1, frameIndex := 1 }

/-- An invader spawned at `x = 100` on a field 800 wide. -/
def newInvader : Invader := Invader.create 100 (-50)

/-- An invader at the bottom edge of the 800 x 600 field, while the shared
frame index is 1 (frame counter 100). -/
def leavingInvader : Invader :=
  { x := 100, y := 600, width := 75, height := 50, speedX := 2, speedY := 1, frameIndex := 1 }

/-- A running session with `leavingInvader` followed by a newly spawned
invader; the frame counter is 100. -/
def exitScene : State :=
  { sampleState with frameCount := 100, invaders := [leavingInvader, newInvader] }

/-- A running session whose only explosion has just been created. -/
def blastScene : State :=
  { sampleState with explosions := [Explosion.create 380 190] }

/-- An invader that has come down onto the player at home. -/
def landedInvader : Invader :=
  { x := 380, y := 500, width := 75, height := 50, speedX := 2, speedY := 1, frameIndex := 1 }

/-- A running session in which `landedInvader` overlaps the player. -/
def touchdown : State :=
  { sampleState with invaders := [landedInvader] }

/-- An invader showing animation frame 2 (the frame counter is 900). -/
def frameTwoInvader : Invader :=
  { x := 380, y := 190, width := 75, height := 50, speedX := 2, speedY := 1, frameIndex := 2 }

/-- A running session with score 8, no boss yet, and a laser inside the box
of `frameTwoInvader`. -/
def thresholdScene : State :=
  { sampleState with
    frameCount := 900, score := 8, lasers := [midLaser], invaders := [frameTwoInvader] }

/-- A running session with score 9 and nothing to hit. -/
def scoreNine : State := { sampleState with score := 9 }

/-- A running session with a single laser that is inside the boxes of both an
invader and the boss. -/
def doubleHit : State :=
  { sampleState with
    score := 12, bossSpawned := true, boss := some homingBoss,
    lasers := [midLaser], invaders := [crossingInvader] }

/-! ## Basic lemmas -/

@[simp] theorem revLoop_zero {σ : Type} (body : ℕ → σ → σ) (s : σ) :
    revLoop body 0 s = s := rfl

theorem revLoop_succ {σ : Type} (body : ℕ → σ → σ) (n : ℕ) (s : σ) :
    revLoop body (n + 1) s = revLoop body n (body n s) := rfl

theorem revLoop_one {σ : Type} (body : ℕ → σ → σ) (s : σ) :
    revLoop body 1 s = body 0 s := rfl

theorem revLoop_two {σ : Type} (body : ℕ → σ → σ) (s : σ) :
    revLoop body 2 s = body 0 (body 1 s) := rfl

@[simp] theorem playerCollides_zero (p : Player) (invs : List Invader) :
    playerCollides p invs 0 = false := rfl

@[simp] theorem findHitInvader_zero (l : Laser) (invs : List Invader) :
    findHitInvader l invs 0 = none := rfl

theorem checkCollisions_empty (s : State) (hl : s.lasers = []) (hi : s.invaders = []) :
    checkCollisions s = s := by
  simp [checkCollisions, hl, hi]

theorem drawAll_empty (s : State) (hl : s.lasers = []) (hi : s.invaders = [])
    (he : s.explosions = []) : drawAll s = s := by
  simp [drawAll, updateAndDrawLasers, updateAndDrawInvaders, updateAndDrawExplosions, hl, hi, he]

theorem handlePlayerInput_eq (s : State) :
    handlePlayerInput s =
      { s with player := { s.player with x := clampedX s },
               cues := if shiftedX s ≠ clampedX s then s.cues ++ [Cue.bump] else s.cues } := by
  unfold handlePlayerInput clampPlayerX clampedX shiftedX play
  cases hL : s.keyLeft <;> cases hR : s.keyRight <;> simp [hL, hR] <;> split_ifs <;> simp_all

theorem spawnBoss_low (s : State) (h : s.score ≤ 9) : spawnBoss s = s := by
  unfold spawnBoss
  rw [if_neg]
  omega

theorem updateAndDrawBoss_unspawned (s : State) (h : s.bossSpawned = false) :
    updateAndDrawBoss s = s := by
  simp [updateAndDrawBoss, h]

theorem reset_eq (s : State) :
    reset s = requestAnimationFrame
      (handlePlayerInput { resetCore s with frameCount := s.frameCount + 1 }) := by
  unfold reset loop
  simp only [setSpawnInterval, resetCore]
  simp only [Bool.false_eq_true, if_false]
  rw [checkCollisions_empty _ (by simp [handlePlayerInput_eq]) (by simp [handlePlayerInput_eq]),
    spawnBoss_low _ (by simp [handlePlayerInput_eq]),
    drawAll_empty _ (by simp [handlePlayerInput_eq]) (by simp [handlePlayerInput_eq])
      (by simp [handlePlayerInput_eq]),
    updateAndDrawBoss_unspawned _ (by simp [handlePlayerInput_eq])]

/-! ## C3: reset is idempotent -/

/-- C3: for every state (any field size, any held keys), `reset` followed
immediately by a second `reset` agrees with a single `reset` on both scores,
the laser, invader and explosion collections, the boss and its spawned-flag,
the over-flag and the player; after one `reset` the scores are 0, the
collections are empty, there is no boss, and both flags are false. -/
theorem reset_idempotent (s : State) :
    (reset (reset s)).score = (reset s).score ∧
    (reset (reset s)).invaderScore = (reset s).invaderScore ∧
    (reset (reset s)).lasers = (reset s).lasers ∧
    (reset (reset s)).invaders = (reset s).invaders ∧
    (reset (reset s)).explosions = (reset s).explosions ∧
    (reset (reset s)).boss = (reset s).boss ∧
    (reset (reset s)).bossSpawned = (reset s).bossSpawned ∧
    (reset (reset s)).isOver = (reset s).isOver ∧
    (reset (reset s)).player = (reset s).player ∧
    (reset s).score = 0 ∧ (reset s).invaderScore = 0 ∧
    (reset s).lasers = [] ∧ (reset s).invaders = [] ∧ (reset s).explosions = [] ∧
    (reset s).boss = none ∧ (reset s).bossSpawned = false ∧ (reset s).isOver = false := by
  simp only [reset_eq, handlePlayerInput_eq, requestAnimationFrame, resetCore, setSpawnInterval,
    clampedX, shiftedX]
  simp

/-! ## C4: what reset establishes -/

/-- C4, as stated, fails: with `keys['ArrowLeft']` left true from before the
game ended (releasing the key while over does not clear it), the restart by
`Enter` runs `reset`, whose frame tick moves the player 5 to the left of the
home position `(800 - 60) / 2 = 370`. -/
theorem reset_not_home_with_held_key :
    keyup "ArrowLeft" overHeldLeft = overHeldLeft ∧
    keyup "Enter" overHeldLeft = reset overHeldLeft ∧
    (reset overHeldLeft).player.x = 365 ∧
    (reset overHeldLeft).player.x ≠
      (overHeldLeft.canvasWidth - overHeldLeft.player.width) / 2 := by
  refine ⟨by simp [keyup, overHeldLeft], by simp [keyup, overHeldLeft], ?_⟩
  simp only [reset_eq, handlePlayerInput_eq, requestAnimationFrame, resetCore, setSpawnInterval,
    clampedX, shiftedX, overHeldLeft, sampleState, homePlayer]
  norm_num

/-- C4 (amended): when `reset` returns, the player's `y` is the home `y`, both
scores are 0, the over-flag is false, the boss is absent with its spawned-flag
false and the three collections are empty; the player's `x` is the home `x`
after the input handling of the frame tick that `reset` runs (shifted by the
speed for each held arrow key, then clamped to the field), which is the home
`x` itself when no arrow key is held and the field is at least as wide as the
player. -/
theorem reset_establishes (s : State) :
    (reset s).player.y = s.canvasHeight - s.player.height - 20 ∧
    (reset s).score = 0 ∧ (reset s).invaderScore = 0 ∧
    (reset s).isOver = false ∧
    (reset s).boss = none ∧ (reset s).bossSpawned = false ∧
    (reset s).lasers = [] ∧ (reset s).invaders = [] ∧ (reset s).explosions = [] ∧
    (reset s).player.x =
      (let home := (s.canvasWidth - s.player.width) / 2
       let shifted := (if s.keyLeft then home - s.player.speed else home) +
         (if s.keyRight then s.player.speed else 0)
       let x1 := if shifted < 0 then 0 else shifted
       if x1 + s.player.width > s.canvasWidth then s.canvasWidth - s.player.width else x1) ∧
    (s.keyLeft = false → s.keyRight = false → s.player.width ≤ s.canvasWidth →
      (reset s).player.x = (s.canvasWidth - s.player.width) / 2) := by
  simp only [reset_eq, handlePlayerInput_eq, requestAnimationFrame, resetCore, setSpawnInterval,
    clampedX, shiftedX, true_and]
  intro hL hR hW
  simp only [hL, hR, Bool.false_eq_true, if_false, add_zero]
  have h1 : ¬ (s.canvasWidth - s.player.width) / 2 < 0 := by
    have : 0 ≤ s.canvasWidth - s.player.width := by linarith
    have : 0 ≤ (s.canvasWidth - s.player.width) / 2 := by positivity
    linarith
  have h2 : ¬ (s.canvasWidth - s.player.width) / 2 + s.player.width > s.canvasWidth := by
    have : (s.canvasWidth - s.player.width) / 2 + s.player.width
        = s.canvasWidth - (s.canvasWidth - s.player.width) / 2 := by ring
    have : 0 ≤ (s.canvasWidth - s.player.width) / 2 := by
      have : 0 ≤ s.canvasWidth - s.player.width := by linarith
      positivity
    linarith
  rw [if_neg h1, if_neg h2]

/-- Witness for `reset_establishes` at `sampleState`. -/
theorem reset_establishes_witness :
    sampleState.keyLeft = false ∧ sampleState.keyRight = false ∧
    sampleState.player.width ≤ sampleState.canvasWidth ∧
    (reset sampleState).player.x = (sampleState.canvasWidth - sampleState.player.width) / 2 :=
  ⟨rfl, rfl, by norm_num [sampleState, homePlayer],
    (reset_establishes sampleState).2.2.2.2.2.2.2.2.2.2 rfl rfl
      (by norm_num [sampleState, homePlayer])⟩

/-! ## C5: the bump cue at the left edge -/

theorem handlePlayerInput_left_edge (s : State) (hx : s.player.x = 0) (hL : s.keyLeft = true)
    (hR : s.keyRight = false) (hW : s.player.width ≤ s.canvasWidth) (hS : 0 < s.player.speed) :
    handlePlayerInput s = { s with cues := s.cues ++ [Cue.bump] } := by
  have hsh : shiftedX s = -s.player.speed := by simp [shiftedX, hL, hR, hx]
  have hcl : clampedX s = 0 := by
    simp only [clampedX, hsh]
    rw [if_pos (by linarith : -s.player.speed < 0), if_neg (by linarith)]
  rw [handlePlayerInput_eq, hcl, hsh, if_pos (by linarith), ← hx]

theorem iterate_handlePlayerInput_left_edge (s : State) (n : ℕ) (hx : s.player.x = 0)
    (hL : s.keyLeft = true) (hR : s.keyRight = false) (hW : s.player.width ≤ s.canvasWidth)
    (hS : 0 < s.player.speed) :
    handlePlayerInput^[n] s = { s with cues := s.cues ++ List.replicate n Cue.bump } := by
  induction n with
  | zero => simp
  | succ n ih =>
    rw [Function.iterate_succ_apply', ih]
    have h := handlePlayerInput_left_edge
      { s with cues := s.cues ++ List.replicate n Cue.bump } hx hL hR hW hS
    rw [h]
    simp [List.replicate_succ']

/-- C5, as stated, fails: with the player at `x = 0` and the left key held,
the second frame leaves the player where the first frame left it (`x = 0`) and
still plays the bump cue. -/
theorem bump_repeats_at_left_edge :
    (handlePlayerInput atLeftEdge).player.x = 0 ∧
    (handlePlayerInput atLeftEdge).keyLeft = true ∧
    (handlePlayerInput (handlePlayerInput atLeftEdge)).player.x = 0 ∧
    (handlePlayerInput (handlePlayerInput atLeftEdge)).cues =
      (handlePlayerInput atLeftEdge).cues ++ [Cue.bump] := by
  simp only [handlePlayerInput_eq, clampedX, shiftedX, atLeftEdge, sampleState, homePlayer]
  norm_num

/-- C5 (amended): with the player at `x = 0`, the left key held, the right
key not held and the field at least as wide as the player, every one of `n`
consecutive `handlePlayerInput` frames leaves `x = 0` (never below 0) and
every one of them plays the bump cue once, because `clampPlayerX` compares the
clamped position with the position after the key shift of the same frame, not
with the position of the previous frame. -/
theorem bump_every_frame_at_left_edge (s : State) (n : ℕ) (hx : s.player.x = 0)
    (hL : s.keyLeft = true) (hR : s.keyRight = false) (hW : s.player.width ≤ s.canvasWidth)
    (hS : 0 < s.player.speed) :
    (handlePlayerInput^[n] s).player.x = 0 ∧
    (handlePlayerInput^[n] s).cues = s.cues ++ List.replicate n Cue.bump ∧
    (handlePlayerInput^[n + 1] s).cues = (handlePlayerInput^[n] s).cues ++ [Cue.bump] := by
  rw [iterate_handlePlayerInput_left_edge s n hx hL hR hW hS,
    iterate_handlePlayerInput_left_edge s (n + 1) hx hL hR hW hS]
  simp [hx, List.replicate_succ']

/-- Witness for `bump_every_frame_at_left_edge` at `atLeftEdge`, three frames. -/
theorem bump_every_frame_at_left_edge_witness :
    (handlePlayerInput^[3] atLeftEdge).player.x = 0 ∧
    (handlePlayerInput^[3] atLeftEdge).cues = atLeftEdge.cues ++ List.replicate 3 Cue.bump ∧
    (handlePlayerInput^[3 + 1] atLeftEdge).cues =
      (handlePlayerInput^[3] atLeftEdge).cues ++ [Cue.bump] :=
  bump_every_frame_at_left_edge atLeftEdge 3 rfl rfl rfl
    (by norm_num [atLeftEdge, sampleState, homePlayer])
    (by norm_num [atLeftEdge, sampleState, homePlayer])

/-! ## C10: boss phases -/

theorem Boss.update_arrived (b : Boss) (p : Player) (w : ℚ) (h : b.arrived = true) :
    (b.update p w).arrived = true := by
  simp [Boss.update, h]

theorem Boss.updates_arrived (b : Boss) (inputs : List (Player × ℚ)) (h : b.arrived = true) :
    (b.updates inputs).arrived = true := by
  induction inputs generalizing b with
  | nil => simpa [Boss.updates] using h
  | cons i rest ih =>
    simp only [Boss.updates, List.foldl_cons]
    exact ih _ (Boss.update_arrived b i.1 i.2 h)

theorem Boss.updates_append (b : Boss) (xs ys : List (Player × ℚ)) :
    b.updates (xs ++ ys) = (b.updates xs).updates ys := by
  simp [Boss.updates, List.foldl_append]

/-- C10: for every `Boss.update` call, a boss that is Descending before and
Homing after has `y = targetY` after the call and had `y + 3 ≥ targetY`
before it; a boss that is Homing before is Homing after; `targetY` is not
changed; and along any sequence of updates, once the boss is Homing after `i`
updates it is Homing after every `j ≥ i` updates (the phase changes at most
once). -/
theorem boss_phase_change (b : Boss) (p : Player) (w : ℚ) (inputs : List (Player × ℚ))
    (i j : ℕ) :
    (b.arrived = false → (b.update p w).arrived = true →
      (b.update p w).y = b.targetY ∧ b.y + 3 ≥ b.targetY) ∧
    (b.arrived = true → (b.update p w).arrived = true) ∧
    (b.update p w).targetY = b.targetY ∧
    (i ≤ j → (b.updates (inputs.take i)).arrived = true →
      (b.updates (inputs.take j)).arrived = true) := by
  refine ⟨?_, Boss.update_arrived b p w, ?_, ?_⟩
  · intro h0 h1
    unfold Boss.update at h1 ⊢
    simp only [h0, Bool.false_eq_true, not_false_eq_true, if_true] at h1 ⊢
    by_cases hy : b.y + 3 ≥ b.targetY
    · simp [hy]
    · simp [hy, h0] at h1
  · unfold Boss.update
    dsimp only
    split_ifs <;> rfl
  · intro hij h
    obtain ⟨k, rfl⟩ := Nat.exists_eq_add_of_le hij
    have : inputs.take (i + k) = inputs.take i ++ (inputs.drop i).take k := by
      rw [List.take_add]
    rw [this, Boss.updates_append]
    exact Boss.updates_arrived _ _ h

/-- Witness for `boss_phase_change`: a boss 2 above its target arrives. -/
theorem boss_phase_change_witness :
    ((descendingBoss.update homePlayer 800).y = descendingBoss.targetY ∧
      descendingBoss.y + 3 ≥ descendingBoss.targetY) ∧
    (descendingBoss.updates
      ([(homePlayer, 800), (homePlayer, 800)].take 2)).arrived = true :=
  have h1 : (descendingBoss.update homePlayer 800).arrived = true := by
    simp [Boss.update, descendingBoss]; norm_num
  ⟨(boss_phase_change descendingBoss homePlayer 800 [] 0 0).1 rfl h1,
    (boss_phase_change descendingBoss homePlayer 800
      [(homePlayer, 800), (homePlayer, 800)] 1 2).2.2.2 (by decide)
      (by simpa [Boss.updates] using h1)⟩

/-! ## C2: the deferred boss-defeat callback after a reset -/

/-- C2, as stated, fails: after `reset` the callback scheduled in the previous
session is still outstanding, and when it fires it sets the over-flag of the
new session. -/
theorem stale_callback_ends_new_session :
    (reset overStaleTimeout).defeatTimeouts = 1 ∧
    (reset overStaleTimeout).isOver = false ∧
    (fireDefeatTimeout (reset overStaleTimeout)).isOver = true ∧
    bossDefeatCallback (reset overStaleTimeout) ≠ reset overStaleTimeout := by
  have h1 : (reset overStaleTimeout).isOver = false := by
    simp [reset_eq, handlePlayerInput_eq, requestAnimationFrame, resetCore, setSpawnInterval]
  have h2 : (reset overStaleTimeout).defeatTimeouts = 1 := by
    simp [reset_eq, handlePlayerInput_eq, requestAnimationFrame, resetCore, setSpawnInterval,
      overStaleTimeout, sampleState]
  have h3 : ∀ s : State, (bossDefeatCallback s).isOver = true := by
    intro s
    simp only [bossDefeatCallback, enterOver, clearInterval, play, cancelAnimationFrame]
    split <;> split <;> rfl
  refine ⟨h2, h1, ?_, ?_⟩
  · simp only [fireDefeatTimeout, h2]
    exact h3 _
  · intro h
    have := h3 (reset overStaleTimeout)
    rw [h, h1] at this
    exact Bool.noConfusion this

/-- C2 (amended): for every state produced by `reset`, running the deferred
boss-defeat callback leaves both scores, the frame counter, the player, the
boss with its spawned-flag and the laser, invader and explosion collections
unchanged, but it sets the over-flag to true and plays the game-over cue; the
frame tick that follows does not advance the frame counter, so the new session
stops. -/
theorem stale_callback_effect (s : State) :
    (bossDefeatCallback (reset s)).isOver = true ∧
    (bossDefeatCallback (reset s)).cues = (reset s).cues ++ [Cue.gameover] ∧
    (bossDefeatCallback (reset s)).score = (reset s).score ∧
    (bossDefeatCallback (reset s)).invaderScore = (reset s).invaderScore ∧
    (bossDefeatCallback (reset s)).frameCount = (reset s).frameCount ∧
    (bossDefeatCallback (reset s)).player = (reset s).player ∧
    (bossDefeatCallback (reset s)).boss = (reset s).boss ∧
    (bossDefeatCallback (reset s)).bossSpawned = (reset s).bossSpawned ∧
    (bossDefeatCallback (reset s)).lasers = (reset s).lasers ∧
    (bossDefeatCallback (reset s)).invaders = (reset s).invaders ∧
    (bossDefeatCallback (reset s)).explosions = (reset s).explosions ∧
    (loop (bossDefeatCallback (reset s))).frameCount = (reset s).frameCount ∧
    (loop (bossDefeatCallback (reset s))).isOver = true := by
  have h : ∀ t : State,
      (bossDefeatCallback t).isOver = true ∧
      (bossDefeatCallback t).cues = t.cues ++ [Cue.gameover] ∧
      (bossDefeatCallback t).score = t.score ∧
      (bossDefeatCallback t).invaderScore = t.invaderScore ∧
      (bossDefeatCallback t).frameCount = t.frameCount ∧
      (bossDefeatCallback t).player = t.player ∧
      (bossDefeatCallback t).boss = t.boss ∧
      (bossDefeatCallback t).bossSpawned = t.bossSpawned ∧
      (bossDefeatCallback t).lasers = t.lasers ∧
      (bossDefeatCallback t).invaders = t.invaders ∧
      (bossDefeatCallback t).explosions = t.explosions := by
    intro t
    simp only [bossDefeatCallback, enterOver, clearInterval, play, cancelAnimationFrame]
    split <;> split <;> simp
  have hl : ∀ t : State, t.isOver = true →
      (loop t).frameCount = t.frameCount ∧ (loop t).isOver = true := by
    intro t ht
    simp only [loop, ht, if_true, clearInterval, play, cancelAnimationFrame]
    split <;> split <;> simp [ht]
  obtain ⟨h1, h2, h3, h4, h5, h6, h7, h8, h9, h10, h11⟩ := h (reset s)
  obtain ⟨h12, h13⟩ := hl _ h1
  exact ⟨h1, h2, h3, h4, h5, h6, h7, h8, h9, h10, h11, h12.trans h5, h13⟩

/-! ## The collision pass: loop lemmas -/

theorem revLoop_invariant {σ : Type} (P : σ → Prop) (body : ℕ → σ → σ)
    (hbody : ∀ i s, P s → P (body i s)) : ∀ n s, P s → P (revLoop body n s) := by
  intro n
  induction n with
  | zero => intro s h; exact h
  | succ n ih => intro s h; exact ih _ (hbody n s h)

theorem hitInvader_eq (i : ℕ) (l : Laser) (s : State) :
    hitInvader i l s =
      match findHitInvader l s.invaders s.invaders.length with
      | some (j, inv) =>
        { s with score := s.score + (inv.frameIndex + 1),
                 explosions := s.explosions ++ [Explosion.create inv.x inv.y],
                 cues := s.cues ++ [Cue.explosion],
                 invaders := s.invaders.eraseIdx j,
                 lasers := s.lasers.eraseIdx i }
      | none => s := by
  unfold hitInvader
  split <;> rfl

@[simp] theorem hitInvader_boss (i : ℕ) (l : Laser) (s : State) :
    (hitInvader i l s).boss = s.boss := by
  rw [hitInvader_eq]; split <;> rfl

@[simp] theorem hitInvader_bossSpawned (i : ℕ) (l : Laser) (s : State) :
    (hitInvader i l s).bossSpawned = s.bossSpawned := by
  rw [hitInvader_eq]; split <;> rfl

@[simp] theorem hitInvader_isOver (i : ℕ) (l : Laser) (s : State) :
    (hitInvader i l s).isOver = s.isOver := by
  rw [hitInvader_eq]; split <;> rfl

@[simp] theorem hitInvader_defeatTimeouts (i : ℕ) (l : Laser) (s : State) :
    (hitInvader i l s).defeatTimeouts = s.defeatTimeouts := by
  rw [hitInvader_eq]; split <;> rfl

theorem hitInvader_lasers_subset (i : ℕ) (l : Laser) (s : State) :
    (hitInvader i l s).lasers ⊆ s.lasers := by
  rw [hitInvader_eq]
  split
  · exact List.eraseIdx_subset _ _
  · exact List.Subset.refl _

theorem hitBoss_miss (i : ℕ) (l : Laser) (s : State)
    (h : ∀ b, s.boss = some b → laserHitsBoss l b = false) : hitBoss i l s = s := by
  unfold hitBoss
  split_ifs with hs
  · split
    · rename_i b hb
      simp [h b hb]
    · rfl
  · rfl

theorem collideLaser_no_boss_hit (s0 : State) (i : ℕ) (s : State)
    (h0 : ∀ b, s0.boss = some b → ∀ l ∈ s0.lasers, laserHitsBoss l b = false)
    (h : s.boss = s0.boss ∧ s.bossSpawned = s0.bossSpawned ∧ s.lasers ⊆ s0.lasers) :
    (collideLaser i s).boss = s0.boss ∧ (collideLaser i s).bossSpawned = s0.bossSpawned ∧
      (collideLaser i s).lasers ⊆ s0.lasers := by
  unfold collideLaser
  split
  · exact h
  · rename_i l hl
    have hmem : l ∈ s.lasers := List.getElem?_mem hl
    rw [hitBoss_miss]
    · exact ⟨by simp [h.1], by simp [h.2.1],
        (hitInvader_lasers_subset i l s).trans h.2.2⟩
    · intro b hb
      rw [hitInvader_boss, h.1] at hb
      exact h0 b hb l (h.2.2 hmem)

theorem checkCollisions_boss (s : State) :
    (checkCollisions s).boss = (revLoop collideLaser s.lasers.length s).boss ∧
    (checkCollisions s).bossSpawned = (revLoop collideLaser s.lasers.length s).bossSpawned := by
  unfold checkCollisions
  dsimp only
  split_ifs <;> exact ⟨rfl, rfl⟩

theorem checkCollisions_no_boss_hit (s : State)
    (h0 : ∀ b, s.boss = some b → ∀ l ∈ s.lasers, laserHitsBoss l b = false) :
    (checkCollisions s).boss = s.boss ∧ (checkCollisions s).bossSpawned = s.bossSpawned := by
  have h := revLoop_invariant
    (fun t => t.boss = s.boss ∧ t.bossSpawned = s.bossSpawned ∧ t.lasers ⊆ s.lasers)
    collideLaser (fun i t ht => collideLaser_no_boss_hit s i t h0 ht) s.lasers.length s
    ⟨rfl, rfl, List.Subset.refl _⟩
  rw [(checkCollisions_boss s).1, (checkCollisions_boss s).2]
  exact ⟨h.1, h.2.1⟩
theorem hitBoss_hit (i : ℕ) (l : Laser) (s : State) (b : Boss)
    (hs : s.bossSpawned = true) (hb : s.boss = some b) (hit : laserHitsBoss l b = true) :
    hitBoss i l s =
      if b.hitCount.getD 0 + 1 > 9 then
        destroyBoss { b with hitCount := some (b.hitCount.getD 0 + 1) }
          { s with boss := some { b with hitCount := some (b.hitCount.getD 0 + 1) },
                   lasers := s.lasers.eraseIdx i,
                   cues := s.cues ++ [Cue.explosion] }
      else
        { s with boss := some { b with hitCount := some (b.hitCount.getD 0 + 1) },
                 lasers := s.lasers.eraseIdx i,
                 cues := s.cues ++ [Cue.explosion] } := by
  unfold hitBoss
  simp only [hs, if_true, hb, hit, play, Option.getD_some]

/-! ## C9: when the boss's hit counter changes -/

/-- C9, as stated, fails: a boss that is still Descending (`arrived = false`)
and is overlapped by a projectile has its hit counter raised by the pass. -/
theorem descending_boss_is_hit :
    slidingBoss.arrived = false ∧
    descentHit.boss = some slidingBoss ∧
    (checkCollisions descentHit).boss = some { slidingBoss with hitCount := some 1 } := by
  refine ⟨rfl, rfl, ?_⟩
  simp [checkCollisions, descentHit, sampleState, homePlayer, revLoop_one, collideLaser,
    hitInvader, hitBoss, laserHitsBoss, aabb, slidingBoss, topLaser, play]
  norm_num

/-- C9 (amended): for every `checkCollisions` pass, the boss's hit counter
changes only if a projectile's bounding box overlaps the boss: when no
projectile of the pass overlaps the boss, the boss (its hit counter included)
and its spawned-flag are unchanged by the pass.  The phase is not consulted:
in either phase a projectile that overlaps the boss raises the counter by
one. -/
theorem boss_hit_only_on_overlap (s : State) :
    ((∀ b, s.boss = some b → ∀ l ∈ s.lasers, laserHitsBoss l b = false) →
      (checkCollisions s).boss = s.boss ∧ (checkCollisions s).bossSpawned = s.bossSpawned) ∧
    (∀ (i : ℕ) (l : Laser) (b : Boss), s.bossSpawned = true → s.boss = some b →
      laserHitsBoss l b = true → b.hitCount.getD 0 + 1 ≤ 9 →
      (hitBoss i l s).boss = some { b with hitCount := some (b.hitCount.getD 0 + 1) }) := by
  refine ⟨checkCollisions_no_boss_hit s, ?_⟩
  intro i l b hs hb hit hc
  rw [hitBoss_hit i l s b hs hb hit, if_neg (by omega)]

/-- Witness for `boss_hit_only_on_overlap`: no laser at `sampleState`, and the
Descending boss of `descentHit` hit by `topLaser`. -/
theorem boss_hit_only_on_overlap_witness :
    ((checkCollisions sampleState).boss = sampleState.boss ∧
      (checkCollisions sampleState).bossSpawned = sampleState.bossSpawned) ∧
    (hitBoss 0 topLaser descentHit).boss = some { slidingBoss with hitCount := some (0 + 1) } :=
  ⟨(boss_hit_only_on_overlap sampleState).1 (fun b hb => by simp [sampleState] at hb),
    (boss_hit_only_on_overlap descentHit).2 0 topLaser slidingBoss rfl rfl
      (by simp [laserHitsBoss, aabb, slidingBoss, topLaser]; norm_num) (by decide)⟩

/-! ## C8: boss defeat -/

theorem hitBoss_absent (i : ℕ) (l : Laser) (s : State) (h : s.boss = none) :
    hitBoss i l s = s :=
  hitBoss_miss i l s (fun b hb => by rw [h] at hb; exact Option.noConfusion hb)

theorem collideLaser_absent (i : ℕ) (s : State) (h : s.boss = none) :
    (collideLaser i s).boss = none ∧
    (collideLaser i s).bossSpawned = s.bossSpawned ∧
    (collideLaser i s).defeatTimeouts = s.defeatTimeouts := by
  unfold collideLaser
  split
  · exact ⟨h, rfl, rfl⟩
  · rename_i l hl
    rw [hitBoss_absent _ _ _ (by simp [h])]
    simp [h]

theorem revLoop_collideLaser_absent (n : ℕ) (s : State) (h : s.boss = none) :
    (revLoop collideLaser n s).boss = none ∧
    (revLoop collideLaser n s).bossSpawned = s.bossSpawned ∧
    (revLoop collideLaser n s).defeatTimeouts = s.defeatTimeouts :=
  revLoop_invariant
    (fun t => t.boss = none ∧ t.bossSpawned = s.bossSpawned ∧
      t.defeatTimeouts = s.defeatTimeouts)
    collideLaser
    (fun i t ht => by
      obtain ⟨h1, h2, h3⟩ := collideLaser_absent i t ht.1
      exact ⟨h1, h2.trans ht.2.1, h3.trans ht.2.2⟩)
    n s ⟨h, rfl, rfl⟩

theorem hitBoss_isOver (i : ℕ) (l : Laser) (s : State) :
    (hitBoss i l s).isOver = s.isOver := by
  unfold hitBoss destroyBoss play
  dsimp only
  split_ifs
  · split
    · split_ifs <;> rfl
    · rfl
  · rfl

theorem collideLaser_isOver (i : ℕ) (s : State) : (collideLaser i s).isOver = s.isOver := by
  unfold collideLaser
  split
  · rfl
  · rw [hitBoss_isOver, hitInvader_isOver]

theorem revLoop_collideLaser_isOver (n : ℕ) (s : State) :
    (revLoop collideLaser n s).isOver = s.isOver :=
  revLoop_invariant (fun t => t.isOver = s.isOver) collideLaser
    (fun i t ht => (collideLaser_isOver i t).trans ht) n s rfl

theorem take_eraseIdx_self {α : Type} (xs : List α) (i : ℕ) :
    (xs.eraseIdx i).take i = xs.take i := by
  rw [List.eraseIdx_eq_take_drop_succ]
  by_cases h : i ≤ xs.length
  · rw [List.take_append_of_le_length (by simp [h])]
    simp
  · have h1 : xs.length ≤ i := by omega
    rw [List.take_of_length_le h1, List.drop_of_length_le (by omega), List.append_nil,
      List.take_of_length_le h1]

theorem hitInvader_take (i : ℕ) (l : Laser) (s : State) :
    (hitInvader i l s).lasers.take i = s.lasers.take i := by
  rw [hitInvader_eq]
  split
  · exact take_eraseIdx_self _ _
  · rfl

theorem hitBoss_take (i : ℕ) (l : Laser) (s : State) :
    (hitBoss i l s).lasers.take i = s.lasers.take i := by
  unfold hitBoss destroyBoss play
  dsimp only
  split_ifs
  · split
    · split_ifs
      · exact take_eraseIdx_self _ _
      · exact take_eraseIdx_self _ _
      · rfl
    · rfl
  · rfl

theorem collideLaser_take (i : ℕ) (s : State) :
    (collideLaser i s).lasers.take i = s.lasers.take i := by
  unfold collideLaser
  split
  · rfl
  · rw [hitBoss_take, hitInvader_take]

theorem laserHitsBoss_hitCount (l : Laser) (b : Boss) (h : Option ℕ) :
    laserHitsBoss l { b with hitCount := h } = laserHitsBoss l b := rfl

theorem bossHits_hitCount (b : Boss) (h : Option ℕ) (lasers : List Laser) (n : ℕ) :
    bossHits { b with hitCount := h } lasers n = bossHits b lasers n := rfl

theorem bossHits_succ (b : Boss) (lasers : List Laser) (n : ℕ) :
    bossHits b lasers (n + 1) =
      bossHits b lasers n +
        (match lasers[n]? with
         | some l => if laserHitsBoss l b then 1 else 0
         | none => 0) := by
  unfold bossHits
  rw [List.take_succ]
  cases h : lasers[n]? with
  | none => simp
  | some l =>
    by_cases hl : laserHitsBoss l b = true <;> simp [hl, List.filter_append]

theorem revLoop_collideLaser_boss (n : ℕ) :
    ∀ (s : State) (b : Boss), s.bossSpawned = true → s.boss = some b →
      b.hitCount.getD 0 ≤ 9 →
      (b.hitCount.getD 0 + bossHits b s.lasers n ≤ 9 →
        (revLoop collideLaser n s).boss =
            some { b with
              hitCount :=
                if bossHits b s.lasers n = 0 then b.hitCount
                else some (b.hitCount.getD 0 + bossHits b s.lasers n) } ∧
          (revLoop collideLaser n s).bossSpawned = true ∧
          (revLoop collideLaser n s).defeatTimeouts = s.defeatTimeouts) ∧
      (9 < b.hitCount.getD 0 + bossHits b s.lasers n →
        (revLoop collideLaser n s).boss = none ∧
          (revLoop collideLaser n s).bossSpawned = false ∧
          (revLoop collideLaser n s).defeatTimeouts = s.defeatTimeouts + 1) := by
  induction n with
  | zero =>
    intro s b hs hb hc
    have h0 : bossHits b s.lasers 0 = 0 := by simp [bossHits]
    rw [h0]
    refine ⟨fun _ => ⟨?_, hs, rfl⟩, fun h => absurd h (by omega)⟩
    simp [hb]
  | succ n ih =>
    intro s b hs hb hc
    rw [revLoop_succ, bossHits_succ]
    have htake := collideLaser_take n s
    have hcount : ∀ b1 : Boss, bossHits b1 (collideLaser n s).lasers n = bossHits b1 s.lasers n := by
      intro b1
      unfold bossHits
      rw [htake]
    cases hl : s.lasers[n]? with
    | none =>
      have hcl : collideLaser n s = s := by
        unfold collideLaser; rw [hl]
      rw [hcl]
      simpa using ih s b hs hb hc
    | some l =>
      have hcl : collideLaser n s = hitBoss n l (hitInvader n l s) := by
        unfold collideLaser; rw [hl]
      simp only []
      cases hh : laserHitsBoss l b with
      | false =>
        simp only [Bool.false_eq_true, if_false, add_zero]
        have hmiss : hitBoss n l (hitInvader n l s) = hitInvader n l s :=
          hitBoss_miss _ _ _ (fun b1 hb1 => by
            rw [hitInvader_boss, hb] at hb1
            cases hb1
            exact hh)
        have := ih (collideLaser n s) b (by rw [hcl, hmiss]; simp [hs])
          (by rw [hcl, hmiss]; simp [hb]) hc
        rw [hcount b] at this
        have hd : (collideLaser n s).defeatTimeouts = s.defeatTimeouts := by
          rw [hcl, hmiss]; simp
        rw [hd] at this
        exact this
      | true =>
        have hhit := hitBoss_hit n l (hitInvader n l s) b (by simp [hs]) (by simp [hb]) hh
        simp only [if_true]
        by_cases hten : b.hitCount.getD 0 + 1 > 9
        · have hnone : (collideLaser n s).boss = none ∧
              (collideLaser n s).bossSpawned = false ∧
              (collideLaser n s).defeatTimeouts = s.defeatTimeouts + 1 := by
            rw [hcl, hhit, if_pos hten]
            simp [destroyBoss, play]
          obtain ⟨a1, a2, a3⟩ := revLoop_collideLaser_absent n _ hnone.1
          refine ⟨fun h => absurd h (by omega), fun _ => ⟨a1, a2.trans hnone.2.1,
            a3.trans hnone.2.2⟩⟩
        · have hsome : (collideLaser n s).boss =
                some { b with hitCount := some (b.hitCount.getD 0 + 1) } ∧
              (collideLaser n s).bossSpawned = true ∧
              (collideLaser n s).defeatTimeouts = s.defeatTimeouts := by
            rw [hcl, hhit, if_neg hten]
            simp [hs]
          have := ih (collideLaser n s) { b with hitCount := some (b.hitCount.getD 0 + 1) }
            hsome.2.1 hsome.1 (by simp only [Option.getD_some]; omega)
          rw [hcount, bossHits_hitCount, hsome.2.2] at this
          simp only [Option.getD_some] at this
          obtain ⟨t1, t2⟩ := this
          refine ⟨fun h => ?_, fun h => t2 (by omega)⟩
          obtain ⟨u1, u2, u3⟩ := t1 (by omega)
          refine ⟨?_, u2, u3⟩
          rw [u1]
          by_cases hk : bossHits b s.lasers n = 0
          · simp [hk]
          · simp only [hk, if_false]
            have : bossHits b s.lasers n + 1 ≠ 0 := by omega
            simp only [this, if_false]
            congr 3
            omega

theorem checkCollisions_defeatTimeouts (s : State) :
    (checkCollisions s).defeatTimeouts =
      (revLoop collideLaser s.lasers.length s).defeatTimeouts := by
  unfold checkCollisions
  dsimp only
  split_ifs <;> rfl

/-- C8: let a boss with at most nine hits be present.  (1) A whole
`checkCollisions` pass in which the hits so far plus the projectiles
overlapping the boss stay at 9 or below keeps the boss, with its counter
raised by the number of those projectiles, and schedules no deferred callback;
a pass in which they exceed 9 removes the boss, clears its spawned-flag and
schedules exactly one deferred callback.  (2) In the loop iteration of a
projectile that overlaps the boss, a hit bringing the counter below 10 leaves
the boss in place with the counter raised by one and adds no score, explosion
or callback; the hit bringing the counter to 10 removes the boss and clears
its spawned-flag, adds exactly 100 to the score, appends a scale-3 explosion
at `(boss.x + boss.width/2 - 32, boss.y + boss.height/2 - 32)`, schedules one
callback, and in the rest of the pass the boss stays absent and no further
callback is scheduled; the iteration leaves the over-flag unchanged.  (3) The
projectile loop leaves the over-flag unchanged, and after the whole pass the
over-flag is the old flag or the result of the invader-versus-player scan. -/
theorem boss_defeat (s : State) (b : Boss) (hs : s.bossSpawned = true)
    (hb : s.boss = some b) (hc : b.hitCount.getD 0 ≤ 9) :
    (b.hitCount.getD 0 + bossHits b s.lasers s.lasers.length ≤ 9 →
      (checkCollisions s).boss =
          some { b with
            hitCount :=
              if bossHits b s.lasers s.lasers.length = 0 then b.hitCount
              else some (b.hitCount.getD 0 + bossHits b s.lasers s.lasers.length) } ∧
        (checkCollisions s).bossSpawned = true ∧
        (checkCollisions s).defeatTimeouts = s.defeatTimeouts) ∧
    (9 < b.hitCount.getD 0 + bossHits b s.lasers s.lasers.length →
      (checkCollisions s).boss = none ∧
        (checkCollisions s).bossSpawned = false ∧
        (checkCollisions s).defeatTimeouts = s.defeatTimeouts + 1) ∧
    (∀ (i : ℕ) (l : Laser), s.lasers[i]? = some l → laserHitsBoss l b = true →
      (b.hitCount.getD 0 + 1 < 10 →
        (collideLaser i s).boss = some { b with hitCount := some (b.hitCount.getD 0 + 1) } ∧
        (collideLaser i s).bossSpawned = true ∧
        (collideLaser i s).score = (hitInvader i l s).score ∧
        (collideLaser i s).explosions = (hitInvader i l s).explosions ∧
        (collideLaser i s).defeatTimeouts = s.defeatTimeouts) ∧
      (b.hitCount.getD 0 + 1 = 10 →
        (collideLaser i s).boss = none ∧
        (collideLaser i s).bossSpawned = false ∧
        (collideLaser i s).score = (hitInvader i l s).score + 100 ∧
        (collideLaser i s).explosions = (hitInvader i l s).explosions ++
          [{ x := b.x + b.width / 2 - 32, y := b.y + b.height / 2 - 32,
             frameIndex := 0, timer := 0, scale := 3 }] ∧
        (collideLaser i s).defeatTimeouts = s.defeatTimeouts + 1 ∧
        ∀ n, (revLoop collideLaser n (collideLaser i s)).boss = none ∧
          (revLoop collideLaser n (collideLaser i s)).bossSpawned = false ∧
          (revLoop collideLaser n (collideLaser i s)).defeatTimeouts =
            s.defeatTimeouts + 1) ∧
      (collideLaser i s).isOver = s.isOver) ∧
    (revLoop collideLaser s.lasers.length s).isOver = s.isOver ∧
    (checkCollisions s).isOver =
      (s.isOver || playerCollides (checkCollisions s).player (checkCollisions s).invaders
        (checkCollisions s).invaders.length) := by
  obtain ⟨w1, w2⟩ := revLoop_collideLaser_boss s.lasers.length s b hs hb hc
  rw [(checkCollisions_boss s).1, (checkCollisions_boss s).2, checkCollisions_defeatTimeouts]
  refine ⟨w1, w2, ?_, revLoop_collideLaser_isOver _ s, ?_⟩
  · intro i l hl hit
    have hcl : collideLaser i s = hitBoss i l (hitInvader i l s) := by
      unfold collideLaser
      rw [hl]
    have hhit := hitBoss_hit i l (hitInvader i l s) b (by simp [hs]) (by simp [hb]) hit
    refine ⟨?_, ?_, collideLaser_isOver i s⟩
    · intro h
      rw [hcl, hhit, if_neg (by omega)]
      simp [hs]
    · intro h
      have hd : (collideLaser i s).boss = none ∧
          (collideLaser i s).bossSpawned = false ∧
          (collideLaser i s).score = (hitInvader i l s).score + 100 ∧
          (collideLaser i s).explosions = (hitInvader i l s).explosions ++
            [{ x := b.x + b.width / 2 - 32, y := b.y + b.height / 2 - 32,
               frameIndex := 0, timer := 0, scale := 3 }] ∧
          (collideLaser i s).defeatTimeouts = s.defeatTimeouts + 1 := by
        rw [hcl, hhit, if_pos (by omega)]
        simp [destroyBoss, play, Explosion.create, explosionSpriteW, explosionSpriteH]
        norm_num
      refine ⟨hd.1, hd.2.1, hd.2.2.1, hd.2.2.2.1, hd.2.2.2.2, ?_⟩
      intro n
      obtain ⟨h1, h2, h3⟩ := revLoop_collideLaser_absent n (collideLaser i s) hd.1
      exact ⟨h1, h2.trans hd.2.1, h3.trans hd.2.2.2.2⟩
  · unfold checkCollisions
    dsimp only
    split_ifs with hp
    · simp [hp]
    · simp [hp, revLoop_collideLaser_isOver]

/-- Witness for `boss_defeat`: the tenth hit at `bossFight`, as a whole pass
and as the loop iteration of the laser. -/
theorem boss_defeat_witness :
    ((checkCollisions bossFight).boss = none ∧
      (checkCollisions bossFight).bossSpawned = false ∧
      (checkCollisions bossFight).defeatTimeouts = bossFight.defeatTimeouts + 1) ∧
    ((collideLaser 0 bossFight).boss = none ∧
      (collideLaser 0 bossFight).bossSpawned = false ∧
      (collideLaser 0 bossFight).score = (hitInvader 0 midLaser bossFight).score + 100 ∧
      (collideLaser 0 bossFight).explosions = (hitInvader 0 midLaser bossFight).explosions ++
        [{ x := woundedBoss.x + woundedBoss.width / 2 - 32,
           y := woundedBoss.y + woundedBoss.height / 2 - 32,
           frameIndex := 0, timer := 0, scale := 3 }] ∧
      (collideLaser 0 bossFight).defeatTimeouts = bossFight.defeatTimeouts + 1 ∧
      ∀ n, (revLoop collideLaser n (collideLaser 0 bossFight)).boss = none ∧
        (revLoop collideLaser n (collideLaser 0 bossFight)).bossSpawned = false ∧
        (revLoop collideLaser n (collideLaser 0 bossFight)).defeatTimeouts =
          bossFight.defeatTimeouts + 1) :=
  have hmb : laserHitsBoss midLaser woundedBoss = true := by
    simp [laserHitsBoss, aabb, midLaser, woundedBoss]
    norm_num
  have hk : bossHits woundedBoss bossFight.lasers bossFight.lasers.length = 1 := by
    simp [bossHits, bossFight, hmb]
  ⟨(boss_defeat bossFight woundedBoss rfl rfl (by decide)).2.1 (by rw [hk]; decide),
    ((boss_defeat bossFight woundedBoss rfl rfl (by decide)).2.2.1 0 midLaser rfl hmb).2.1
      (by decide)⟩

/-! ## C6: projectiles against invaders, no boss -/

theorem findHitInvader_succ (l : Laser) (invs : List Invader) (j : ℕ) :
    findHitInvader l invs (j + 1) =
      match invs[j]? with
      | some inv =>
        if laserHitsInvader l inv then some (j, inv) else findHitInvader l invs j
      | none => findHitInvader l invs j := rfl

theorem findHitInvader_cons (l : Laser) (inv : Invader) (rest : List Invader) (n : ℕ) :
    findHitInvader l (inv :: rest) (n + 1) =
      match findHitInvader l rest n with
      | some (j, x) => some (j + 1, x)
      | none => if laserHitsInvader l inv then some (0, inv) else none := by
  induction n with
  | zero => simp [findHitInvader]
  | succ n ih =>
    rw [findHitInvader_succ l (inv :: rest) (n + 1), findHitInvader_succ l rest n]
    simp only [List.getElem?_cons_succ]
    cases hx : rest[n]? with
    | none => simpa using ih
    | some x =>
      by_cases hh : laserHitsInvader l x = true
      · simp [hh]
      · simp only [hh, if_false]; simpa using ih

theorem findHitInvader_spec (l : Laser) (invs : List Invader) :
    match findHitInvader l invs invs.length with
    | some (j, inv) => specLaser l invs = some (inv, invs.eraseIdx j)
    | none => specLaser l invs = none := by
  induction invs with
  | nil => simp [findHitInvader, specLaser]
  | cons inv rest ih =>
    rw [List.length_cons, findHitInvader_cons]
    cases hf : findHitInvader l rest rest.length with
    | none =>
      rw [hf] at ih
      simp only at ih ⊢
      by_cases hh : laserHitsInvader l inv = true
      · simp [hh, specLaser, ih]
      · simp [hh, specLaser, ih]
    | some p =>
      obtain ⟨j, x⟩ := p
      rw [hf] at ih
      simp only at ih ⊢
      simp [specLaser, ih]

/-- No boss takes part in the pass: `state.bossSpawned && state.boss` is
falsy. -/
theorem hitBoss_no_boss (i : ℕ) (l : Laser) (s : State)
    (h : s.bossSpawned = false ∨ s.boss = none) : hitBoss i l s = s := by
  rcases h with h | h
  · simp [hitBoss, h]
  · exact hitBoss_absent i l s h

theorem revLoop_collideLaser_spec (pre : List Laser) :
    ∀ (post : List Laser) (s : State), s.lasers = pre ++ post →
      (s.bossSpawned = false ∨ s.boss = none) →
      (revLoop collideLaser pre.length s).lasers =
          (specPassRev pre.reverse s.invaders).lasers ++ post ∧
        (revLoop collideLaser pre.length s).invaders =
          (specPassRev pre.reverse s.invaders).invaders ∧
        (revLoop collideLaser pre.length s).score =
          s.score + (specPassRev pre.reverse s.invaders).gain := by
  induction pre using List.reverseRecOn with
  | nil =>
    intro post s hl _
    simp [specPassRev, hl]
  | append_singleton pre l ih =>
    intro post s hl hb
    have hget : s.lasers[pre.length]? = some l := by
      rw [hl, List.append_assoc, List.getElem?_append_right (le_refl _)]
      simp
    have hcl : collideLaser pre.length s = hitInvader pre.length l s := by
      unfold collideLaser
      rw [hget]
      exact hitBoss_no_boss _ _ _ (by simpa using hb)
    rw [List.length_append, List.length_singleton, revLoop_succ, hcl, List.reverse_append,
      List.reverse_singleton, List.singleton_append]
    have hspec := findHitInvader_spec l s.invaders
    rw [hitInvader_eq]
    cases hf : findHitInvader l s.invaders s.invaders.length with
    | none =>
      rw [hf] at hspec
      simp only at hspec ⊢
      have := ih (l :: post) s (by rw [hl]; simp) hb
      simp only [specPassRev, hspec]
      simpa using this
    | some p =>
      obtain ⟨j, inv⟩ := p
      rw [hf] at hspec
      simp only at hspec ⊢
      have := ih post
        { s with score := s.score + (inv.frameIndex + 1),
                 explosions := s.explosions ++ [Explosion.create inv.x inv.y],
                 cues := s.cues ++ [Cue.explosion],
                 invaders := s.invaders.eraseIdx j,
                 lasers := s.lasers.eraseIdx pre.length }
        (by simp [hl, List.eraseIdx_append_of_length_le]) hb
      simp only [specPassRev, hspec]
      obtain ⟨h1, h2, h3⟩ := this
      refine ⟨h1, h2, ?_⟩
      rw [h3]
      simp only
      omega

theorem specLaser_none (l : Laser) (invs : List Invader) :
    specLaser l invs = none ↔ ∀ x ∈ invs, laserHitsInvader l x = false := by
  induction invs with
  | nil => simp [specLaser]
  | cons inv tl ih =>
    rw [specLaser]
    cases hs : specLaser l tl with
    | some p =>
      simp only [false_iff, reduceCtorEq]
      intro hall
      have := ih.mpr (fun x hx => hall x (List.mem_cons_of_mem _ hx))
      rw [hs] at this
      exact Option.noConfusion this
    | none =>
      have htl := ih.mp hs
      cases hh : laserHitsInvader l inv with
      | true => simp [hh]
      | false =>
        simp only [Bool.false_eq_true, if_false, true_iff]
        intro x hx
        rcases List.mem_cons.mp hx with rfl | hx
        · exact hh
        · exact htl x hx

theorem specLaser_some (l : Laser) (invs : List Invader) (hit : Invader)
    (rest : List Invader) (h : specLaser l invs = some (hit, rest)) :
    ∃ pre post, invs = pre ++ hit :: post ∧ laserHitsInvader l hit = true ∧
      (∀ x ∈ post, laserHitsInvader l x = false) ∧ rest = pre ++ post := by
  induction invs generalizing hit rest with
  | nil => simp [specLaser] at h
  | cons inv tl ih =>
    rw [specLaser] at h
    cases hs : specLaser l tl with
    | some p =>
      obtain ⟨hit1, rest1⟩ := p
      rw [hs] at h
      simp only [Option.some.injEq, Prod.mk.injEq] at h
      obtain ⟨rfl, rfl⟩ := h
      obtain ⟨pre, post, h1, h2, h3, h4⟩ := ih hit1 rest1 hs
      exact ⟨inv :: pre, post, by simp [h1], h2, h3, by simp [h4]⟩
    | none =>
      rw [hs] at h
      simp only at h
      cases hh : laserHitsInvader l inv with
      | true =>
        simp only [hh, if_true, Option.some.injEq, Prod.mk.injEq] at h
        obtain ⟨rfl, rfl⟩ := h
        exact ⟨[], tl, by simp, hh, (specLaser_none l tl).mp hs, by simp⟩
      | false => simp [hh] at h

theorem specPassRev_props (ls : List Laser) :
    ∀ invs : List Invader,
      (specPassRev ls invs).lasers.length + invs.length =
          ls.length + (specPassRev ls invs).invaders.length ∧
        (specPassRev ls invs).gain + invaderPoints (specPassRev ls invs).invaders =
          invaderPoints invs ∧
        (specPassRev ls invs).invaders.Sublist invs ∧
        (specPassRev ls invs).lasers.Sublist ls.reverse ∧
        (∀ l ∈ (specPassRev ls invs).lasers, ∀ inv ∈ (specPassRev ls invs).invaders,
          laserHitsInvader l inv = false) ∧
        ((∀ l ∈ ls, ∀ inv ∈ invs, laserHitsInvader l inv = false) →
          specPassRev ls invs = { lasers := ls.reverse, invaders := invs, gain := 0 }) := by
  induction ls with
  | nil =>
    intro invs
    simp [specPassRev]
  | cons l ls ih =>
    intro invs
    rw [specPassRev]
    cases hs : specLaser l invs with
    | none =>
      obtain ⟨h1, h2, h3, h4, h5, h6⟩ := ih invs
      have hnone := (specLaser_none l invs).mp hs
      dsimp only
      refine ⟨?_, h2, h3, ?_, ?_, ?_⟩
      · simp only [List.length_append, List.length_cons, List.length_nil]
        omega
      · simp only [List.reverse_cons]
        exact List.Sublist.append h4 (List.Sublist.refl _)
      · intro l1 hl1 inv hinv
        simp only [List.mem_append, List.mem_singleton] at hl1
        rcases hl1 with hl1 | rfl
        · exact h5 l1 hl1 inv hinv
        · exact hnone inv (h3.subset hinv)
      · intro hall
        have := h6 (fun l1 hl1 inv hinv => hall l1 (List.mem_cons_of_mem _ hl1) inv hinv)
        simp [this]
    | some p =>
      obtain ⟨hit, rest⟩ := p
      obtain ⟨pre, post, e1, e2, e3, e4⟩ := specLaser_some l invs hit rest hs
      obtain ⟨h1, h2, h3, h4, h5, h6⟩ := ih rest
      have hsub : rest.Sublist invs := by
        rw [e1, e4]
        exact List.Sublist.append (List.Sublist.refl _) (List.sublist_cons_self _ _)
      dsimp only
      refine ⟨?_, ?_, h3.trans hsub, ?_, h5, ?_⟩
      · simp only [List.length_cons]
        have : invs.length = rest.length + 1 := by
          rw [e1, e4]; simp only [List.length_append, List.length_cons]; omega
        omega
      · have : invaderPoints invs = invaderPoints rest + (hit.frameIndex + 1) := by
          rw [e1, e4]
          simp only [invaderPoints, List.map_append, List.map_cons, List.sum_append,
            List.sum_cons]
          omega
        omega
      · simp only [List.reverse_cons]
        exact h4.trans (List.sublist_append_left _ _)
      · intro hall
        have := hall l (List.mem_cons_self _ _) hit (by rw [e1]; simp)
        rw [e2] at this
        exact Bool.noConfusion this

theorem checkCollisions_fields (s : State) :
    (checkCollisions s).lasers = (revLoop collideLaser s.lasers.length s).lasers ∧
    (checkCollisions s).invaders = (revLoop collideLaser s.lasers.length s).invaders ∧
    (checkCollisions s).score = (revLoop collideLaser s.lasers.length s).score := by
  unfold checkCollisions
  dsimp only
  split_ifs <;> exact ⟨rfl, rfl, rfl⟩

/-- C6: with no boss taking part (`state.bossSpawned && state.boss` falsy),
one `checkCollisions` pass agrees with the specified pass `specPass`: going
through the projectiles from the last to the first, each projectile that
overlaps an invader still present is removed together with exactly one
invader, the overlapping one nearest the end of the invader list (the first
met by the backwards scan), and the score grows by that invader's
`frameIndex + 1`; a projectile overlapping no invader still present is kept
and scores nothing.  Consequently the remaining projectiles and invaders are
sublists of the original ones, as many projectiles as invaders are removed,
the score gain is the sum of `frameIndex + 1` over the removed invaders, no
remaining projectile overlaps a remaining invader, and nothing changes when no
projectile overlaps any invader.  The last two conjuncts state what
`specLaser` selects. -/
theorem checkCollisions_invaders_only (s : State)
    (hb : s.bossSpawned = false ∨ s.boss = none) :
    (checkCollisions s).lasers = (specPass s.lasers s.invaders).lasers ∧
    (checkCollisions s).invaders = (specPass s.lasers s.invaders).invaders ∧
    (checkCollisions s).score = s.score + (specPass s.lasers s.invaders).gain ∧
    (checkCollisions s).lasers.Sublist s.lasers ∧
    (checkCollisions s).invaders.Sublist s.invaders ∧
    s.lasers.length - (checkCollisions s).lasers.length =
      s.invaders.length - (checkCollisions s).invaders.length ∧
    (checkCollisions s).score + invaderPoints (checkCollisions s).invaders =
      s.score + invaderPoints s.invaders ∧
    (∀ l ∈ (checkCollisions s).lasers, ∀ inv ∈ (checkCollisions s).invaders,
      laserHitsInvader l inv = false) ∧
    ((∀ l ∈ s.lasers, ∀ inv ∈ s.invaders, laserHitsInvader l inv = false) →
      (checkCollisions s).lasers = s.lasers ∧ (checkCollisions s).invaders = s.invaders ∧
      (checkCollisions s).score = s.score) ∧
    (∀ (l : Laser) (invs : List Invader) (hit : Invader) (rest : List Invader),
      specLaser l invs = some (hit, rest) →
      ∃ pre post, invs = pre ++ hit :: post ∧ laserHitsInvader l hit = true ∧
        (∀ x ∈ post, laserHitsInvader l x = false) ∧ rest = pre ++ post) ∧
    (∀ (l : Laser) (invs : List Invader),
      specLaser l invs = none ↔ ∀ x ∈ invs, laserHitsInvader l x = false) := by
  obtain ⟨f1, f2, f3⟩ := checkCollisions_fields s
  obtain ⟨r1, r2, r3⟩ := revLoop_collideLaser_spec s.lasers [] s (by simp) hb
  rw [List.append_nil] at r1
  obtain ⟨p1, p2, p3, p4, p5, p6⟩ := specPassRev_props s.lasers.reverse s.invaders
  rw [List.reverse_reverse] at p4
  have e1 : (checkCollisions s).lasers = (specPass s.lasers s.invaders).lasers := f1.trans r1
  have e2 : (checkCollisions s).invaders = (specPass s.lasers s.invaders).invaders :=
    f2.trans r2
  have e3 : (checkCollisions s).score = s.score + (specPass s.lasers s.invaders).gain :=
    f3.trans r3
  refine ⟨e1, e2, e3, ?_, ?_, ?_, ?_, ?_, ?_, specLaser_some, specLaser_none⟩
  · rw [e1]; exact p4
  · rw [e2]; exact p3
  · rw [e1, e2]
    simp only [specPass]
    rw [List.length_reverse] at p1
    omega
  · rw [e2, e3]
    simp only [specPass]
    omega
  · rw [e1, e2]; exact p5
  · intro hall
    have := p6 (fun l hl inv hinv => hall l (List.mem_reverse.mp hl) inv hinv)
    rw [e1, e2, e3]
    simp only [specPass, this, List.reverse_reverse]
    simp

/-- Witness for `checkCollisions_invaders_only` at `volley`: the first laser
overlaps both invaders and takes the one nearest the end of the list (worth
`1 + 1`); the second laser overlaps none and stays. -/
theorem checkCollisions_invaders_only_witness :
    (checkCollisions volley).lasers =
      [{ x := 400, y := 450, width := 5, height := 15, speed := 7 }] ∧
    (checkCollisions volley).invaders =
      [{ x := 380, y := 190, width := 75, height := 50, speedX := 2, speedY := 1,
         frameIndex := 1 }] ∧
    (checkCollisions volley).score = 2 := by
  obtain ⟨h1, h2, h3, -⟩ := checkCollisions_invaders_only volley (Or.inl rfl)
  rw [h1, h2, h3]
  simp [specPass, specPassRev, specLaser, volley, sampleState, midLaser, laserHitsInvader, aabb]
  norm_num

/-! ## C7: which projectiles a pass removes -/

theorem findHitInvader_one (l : Laser) (invs : List Invader) :
    findHitInvader l invs 1 =
      match invs[0]? with
      | some inv => if laserHitsInvader l inv then some (0, inv) else none
      | none => none := rfl

theorem playerCollides_one (p : Player) (invs : List Invader) :
    playerCollides p invs 1 =
      match invs[0]? with
      | some inv => if playerHitsInvader p inv then true else false
      | none => false := rfl

/-- C7 fails on the code at `crossfire`: `lowLaser` overlaps neither the
invader nor the boss (and would not leave the top of the field), yet the pass
removes it.  The laser at index 0 hits the invader and is spliced out, then
hits the boss as well, and the second `lasers.splice(i, 1)` removes the laser
that moved into index 0. -/
theorem bystander_laser_removed :
    lowLaser ∈ crossfire.lasers ∧
    (∀ inv ∈ crossfire.invaders, laserHitsInvader lowLaser inv = false) ∧
    (∀ b, crossfire.boss = some b → laserHitsBoss lowLaser b = false) ∧
    ¬ (lowLaser.y - lowLaser.speed < 0) ∧
    (checkCollisions crossfire).lasers = [] ∧
    (checkCollisions crossfire).invaders = [] ∧
    (checkCollisions crossfire).boss = some { homingBoss with hitCount := some 4 } := by
  have hli : laserHitsInvader lowLaser crossingInvader = false := by
    simp [laserHitsInvader, aabb, lowLaser, crossingInvader]
    norm_num
  have hlb : laserHitsBoss lowLaser homingBoss = false := by
    simp [laserHitsBoss, aabb, lowLaser, homingBoss, woundedBoss]
    norm_num
  have hmi : laserHitsInvader midLaser crossingInvader = true := by
    simp [laserHitsInvader, aabb, midLaser, crossingInvader]
    norm_num
  have hmb : laserHitsBoss midLaser homingBoss = true := by
    simp [laserHitsBoss, aabb, midLaser, homingBoss, woundedBoss]
    norm_num
  have h1 : collideLaser 1 crossfire = crossfire := by
    simp [collideLaser, crossfire, hitInvader, findHitInvader_one, hli, hitBoss, hlb]
  have h0 : (collideLaser 0 crossfire).lasers = [] ∧ (collideLaser 0 crossfire).invaders = [] ∧
      (collideLaser 0 crossfire).boss = some { homingBoss with hitCount := some 4 } := by
    simp [collideLaser, crossfire, hitInvader, findHitInvader_one, hmi, hitBoss, hmb, play]
    simp [homingBoss, woundedBoss]
  have hc : (checkCollisions crossfire).lasers = (collideLaser 0 crossfire).lasers ∧
      (checkCollisions crossfire).invaders = (collideLaser 0 crossfire).invaders ∧
      (checkCollisions crossfire).boss = (collideLaser 0 crossfire).boss := by
    have hlen : crossfire.lasers.length = 2 := rfl
    unfold checkCollisions
    simp only [hlen, revLoop_two, h1]
    split_ifs <;> exact ⟨rfl, rfl, rfl⟩
  refine ⟨by simp [crossfire], ?_, ?_, by norm_num [lowLaser], ?_, ?_, ?_⟩
  · intro inv hinv
    simp only [crossfire, List.mem_singleton] at hinv
    rw [hinv]; exact hli
  · intro b hb
    simp only [crossfire, Option.some.injEq] at hb
    rw [← hb]; exact hlb
  · rw [hc.1]; exact h0.1
  · rw [hc.2.1]; exact h0.2.1
  · rw [hc.2.2]; exact h0.2.2

/-! ## C1: how often the boss is created -/

theorem Boss.create_sample :
    Boss.create 800 600 noImage =
      { width := 266, height := 159, x := 267, y := -159, targetY := 72, arrived := false,
        hitCount := none } := by
  have h1 : ⌊(800 : ℚ) / 3⌋ = 266 := by
    rw [Int.floor_eq_iff]; norm_num
  have h2 : ⌊(266 : ℚ) * (6 / 10)⌋ = 159 := by
    rw [Int.floor_eq_iff]; norm_num
  have h3 : ⌊(600 : ℚ) * (12 / 100)⌋ = 72 := by
    rw [Int.floor_eq_iff]; norm_num
  simp only [Boss.create, noImage, h1, h3]
  norm_num [h2]

/-- C1 fails on the code at `bossFight`, a state in which the boss has already
been created (`bossSpawned` is true and the boss has nine hits): the tick's
collision pass destroys the boss and clears `bossSpawned`, the score is then
above 9, and the same tick creates a second boss, which `updateAndDrawBoss`
moves to `y = -156`. -/
theorem boss_respawns_after_defeat :
    bossFight.isOver = false ∧
    bossFight.bossSpawned = true ∧
    bossFight.boss = some woundedBoss ∧
    (checkCollisions
      (handlePlayerInput { bossFight with frameCount := bossFight.frameCount + 1 })).boss
        = none ∧
    (loop bossFight).bossSpawned = true ∧
    (loop bossFight).boss = some freshBoss ∧
    (loop bossFight).defeatTimeouts = 1 := by
  have hmb : laserHitsBoss midLaser woundedBoss = true := by
    simp [laserHitsBoss, aabb, midLaser, woundedBoss]
    norm_num
  have hin : handlePlayerInput { bossFight with frameCount := bossFight.frameCount + 1 } =
      { bossFight with frameCount := bossFight.frameCount + 1 } := by
    rw [handlePlayerInput_eq]
    simp [clampedX, shiftedX, bossFight, sampleState, homePlayer]
    norm_num
  have hcc : (checkCollisions { bossFight with frameCount := bossFight.frameCount + 1 }) =
      { bossFight with
        frameCount := 821, lasers := [], boss := none, bossSpawned := false, score := 112,
        explosions := [{ x := 368, y := 239 / 2, frameIndex := 0, timer := 0, scale := 3 }],
        cues := [Cue.explosion, Cue.explosion], defeatTimeouts := 1 } := by
    simp [checkCollisions, bossFight, sampleState, revLoop_one, collideLaser, hitInvader,
      hitBoss, hmb, play, destroyBoss, Explosion.create, explosionSpriteW, explosionSpriteH]
    simp [woundedBoss]
    norm_num
  have hpb : playerHitsBoss homePlayer freshBoss = false := by
    simp [playerHitsBoss, aabb, homePlayer, freshBoss]
    norm_num
  have hup : (Boss.create 800 600 noImage).update homePlayer 800 = freshBoss := by
    rw [Boss.create_sample]
    simp [Boss.update, freshBoss]
    norm_num
  have hloop : loop bossFight =
      requestAnimationFrame
        { bossFight with
          frameCount := 821, lasers := [], boss := some freshBoss, bossSpawned := true,
          score := 112,
          explosions := [{ x := 368, y := 239 / 2, frameIndex := 0, timer := 1, scale := 3 }],
          cues := [Cue.explosion, Cue.explosion], defeatTimeouts := 1 } := by
    have h0 : bossFight.isOver = false := rfl
    unfold loop
    simp only [h0, Bool.false_eq_true, if_false]
    change requestAnimationFrame (updateAndDrawBoss (drawAll (spawnBoss (checkCollisions
      (handlePlayerInput { bossFight with frameCount := bossFight.frameCount + 1 }))))) = _
    rw [hin, hcc]
    simp [spawnBoss, drawAll, updateAndDrawLasers, updateAndDrawInvaders,
      updateAndDrawExplosions, revLoop_one, explosionBody, Explosion.update,
      explosionAnimSpeed, explosionFrameCount, updateAndDrawBoss, bossFight, sampleState,
      hup, hpb]
  refine ⟨rfl, rfl, rfl, ?_, ?_, ?_, ?_⟩
  · rw [hin, hcc]
  · rw [hloop]; rfl
  · rw [hloop]; rfl
  · rw [hloop]; rfl

/-! ## C11: when an invader turns around -/

theorem Invader.update_eq (inv : Invader) (w : ℚ) :
    inv.update w =
      { inv with
        x := inv.x + inv.speedX
        y := inv.y + inv.speedY
        speedX :=
          if inv.x + inv.speedX + inv.width > w ∨ inv.x + inv.speedX < 0 then -inv.speedX
          else inv.speedX } := by
  unfold Invader.update
  dsimp only
  split_ifs <;> simp

/-- C11, as stated, fails: an invader that is already beyond the right edge
before the move (the field was narrowed to 400) has its horizontal velocity
flipped by `update`, although it was not within the field before the move. -/
theorem stranded_invader_flips :
    (strandedInvader.update 400).speedX = -strandedInvader.speedX ∧
    strandedInvader.speedX ≠ 0 ∧
    ¬ (0 ≤ strandedInvader.x ∧ strandedInvader.x + strandedInvader.width ≤ 400) := by
  rw [Invader.update_eq]
  simp [strandedInvader]
  norm_num

/-- C11 (amended): for every invader and field width, `Invader.update`
multiplies the horizontal velocity by -1 exactly when the invader's box
extends past the left or right field edge after the move (`x + width > W` or
`x < 0`), whether or not it was within the field before the move, and leaves
it unchanged otherwise; so for a nonzero velocity the sign flips if and only
if the box extends past an edge after the move, which for an invader that was
within the field before the move is exactly a crossing in that frame.  The
vertical velocity is never changed, `x` increases by `speedX` and `y` by
exactly `speedY`. -/
theorem Invader.update_flip (inv : Invader) (w : ℚ) :
    ((inv.update w).x + inv.width > w ∨ (inv.update w).x < 0 →
      (inv.update w).speedX = -inv.speedX) ∧
    (¬ ((inv.update w).x + inv.width > w ∨ (inv.update w).x < 0) →
      (inv.update w).speedX = inv.speedX) ∧
    (inv.speedX ≠ 0 →
      ((inv.update w).speedX = -inv.speedX ↔
        ((inv.update w).x + inv.width > w ∨ (inv.update w).x < 0))) ∧
    (inv.speedX ≠ 0 → 0 ≤ inv.x → inv.x + inv.width ≤ w →
      ((inv.update w).speedX = -inv.speedX ↔
        ((0 ≤ inv.x ∧ inv.x + inv.width ≤ w) ∧
          ((inv.update w).x + inv.width > w ∨ (inv.update w).x < 0)))) ∧
    (inv.update w).x = inv.x + inv.speedX ∧
    (inv.update w).y = inv.y + inv.speedY ∧
    (inv.update w).speedY = inv.speedY ∧
    (inv.update w).width = inv.width := by
  rw [Invader.update_eq]
  dsimp only
  have key : inv.speedX ≠ 0 →
      ((if inv.x + inv.speedX + inv.width > w ∨ inv.x + inv.speedX < 0 then -inv.speedX
          else inv.speedX) = -inv.speedX ↔
        (inv.x + inv.speedX + inv.width > w ∨ inv.x + inv.speedX < 0)) := by
    intro h0
    by_cases hp : inv.x + inv.speedX + inv.width > w ∨ inv.x + inv.speedX < 0
    · simp [hp]
    · simp only [hp, if_false, iff_false]
      intro h
      apply h0
      linarith
  refine ⟨fun h => by rw [if_pos h], fun h => by rw [if_neg h], key, ?_, rfl, rfl, rfl, rfl⟩
  intro h0 h1 h2
  rw [key h0]
  exact ⟨fun h => ⟨⟨h1, h2⟩, h⟩, fun h => h.2⟩

/-- Witness for `Invader.update_flip`: `newInvader` moves inside the field and
keeps its velocity; with a field only 176 wide it crosses the right edge and
turns around. -/
theorem Invader.update_flip_witness :
    (newInvader.update 800).speedX = newInvader.speedX ∧
    (newInvader.update 176).speedX = -newInvader.speedX :=
  ⟨(Invader.update_flip newInvader 800).2.1
      (by rw [Invader.update_eq]; simp [newInvader, Invader.create, invaderWidth,
            invaderSpeedX]; norm_num),
    (Invader.update_flip newInvader 176).1
      (by rw [Invader.update_eq]; simp [newInvader, Invader.create, invaderWidth,
            invaderSpeedX]; norm_num)⟩
/-! ## C20: an invader stays within two units of the field -/

theorem getElem?_append_length {α : Type} (pre post : List α) (x : α) :
    (pre ++ x :: post)[pre.length]? = some x := by
  rw [List.getElem?_append_right (le_refl _)]
  simp

theorem set_append_length {α : Type} (pre post : List α) (x y : α) :
    (pre ++ x :: post).set pre.length y = pre ++ y :: post := by
  induction pre with
  | nil => rfl
  | cons a pre ih => simp [ih]

theorem eraseIdx_append_length {α : Type} (pre post : List α) (x : α) :
    (pre ++ x :: post).eraseIdx pre.length = pre ++ post := by
  induction pre with
  | nil => rfl
  | cons a pre ih => simp [ih]

theorem laserBody_at (pre post : List Laser) (l : Laser) (s : State)
    (hl : s.lasers = pre ++ l :: post) :
    laserBody pre.length s =
      if (Laser.move l).y < 0 then { s with lasers := pre ++ post }
      else { s with lasers := pre ++ Laser.move l :: post } := by
  unfold laserBody
  rw [hl, getElem?_append_length]
  dsimp only
  rw [set_append_length, eraseIdx_append_length]
  rfl

theorem revLoop_laserBody (pre : List Laser) :
    ∀ (post : List Laser) (s : State), s.lasers = pre ++ post →
      revLoop laserBody pre.length s =
        { s with lasers := (pre.map Laser.move).filter (fun l => decide (0 ≤ l.y)) ++ post } := by
  induction pre using List.reverseRecOn with
  | nil =>
    intro post s hl
    simp [← hl]
  | append_singleton pre l ih =>
    intro post s hl
    rw [List.append_assoc, List.singleton_append] at hl
    rw [List.length_append, List.length_singleton, revLoop_succ, laserBody_at pre post l s hl]
    by_cases hy : (Laser.move l).y < 0
    · rw [if_pos hy, ih post _ rfl]
      have : ¬ (0 ≤ (Laser.move l).y) := not_le.mpr hy
      simp [List.filter_append, this]
    · rw [if_neg hy, ih (Laser.move l :: post) _ rfl]
      have : 0 ≤ (Laser.move l).y := not_lt.mp hy
      simp [List.filter_append, this]

theorem updateAndDrawLasers_eq (s : State) :
    updateAndDrawLasers s =
      { s with lasers := (s.lasers.map Laser.move).filter (fun l => decide (0 ≤ l.y)) } := by
  unfold updateAndDrawLasers
  rw [revLoop_laserBody s.lasers [] s (by simp)]
  simp

theorem explosionBody_at (pre post : List Explosion) (ex : Explosion) (s : State)
    (hl : s.explosions = pre ++ ex :: post) :
    explosionBody pre.length s =
      if (ex.update explosionAnimSpeed).frameIndex ≥ explosionFrameCount then
        { s with explosions := pre ++ post }
      else { s with explosions := pre ++ ex.update explosionAnimSpeed :: post } := by
  unfold explosionBody
  rw [hl, getElem?_append_length]
  dsimp only
  rw [set_append_length, eraseIdx_append_length]

theorem revLoop_explosionBody (pre : List Explosion) :
    ∀ (post : List Explosion) (s : State), s.explosions = pre ++ post →
      revLoop explosionBody pre.length s =
        { s with
          explosions :=
            (pre.map (fun ex => ex.update explosionAnimSpeed)).filter
              (fun ex => decide (ex.frameIndex < explosionFrameCount)) ++ post } := by
  induction pre using List.reverseRecOn with
  | nil =>
    intro post s hl
    simp [← hl]
  | append_singleton pre ex ih =>
    intro post s hl
    rw [List.append_assoc, List.singleton_append] at hl
    rw [List.length_append, List.length_singleton, revLoop_succ,
      explosionBody_at pre post ex s hl]
    by_cases hy : (ex.update explosionAnimSpeed).frameIndex ≥ explosionFrameCount
    · rw [if_pos hy, ih post _ rfl]
      have : ¬ ((ex.update explosionAnimSpeed).frameIndex < explosionFrameCount) :=
        not_lt.mpr hy
      simp [List.filter_append, this]
    · rw [if_neg hy, ih (ex.update explosionAnimSpeed :: post) _ rfl]
      have : (ex.update explosionAnimSpeed).frameIndex < explosionFrameCount := not_le.mp hy
      simp [List.filter_append, this]

theorem updateAndDrawExplosions_eq (s : State) :
    updateAndDrawExplosions s =
      { s with
        explosions :=
          (s.explosions.map (fun ex => ex.update explosionAnimSpeed)).filter
            (fun ex => decide (ex.frameIndex < explosionFrameCount)) } := by
  unfold updateAndDrawExplosions
  rw [revLoop_explosionBody s.explosions [] s (by simp)]
  simp

theorem Invader.step_frameIndex (f : ℕ) (w : ℚ) (inv : Invader) :
    (Invader.step f w inv).frameIndex = f := by
  unfold Invader.step
  rw [Invader.update_eq]

theorem invaderBody_at (f : ℕ) (pre post : List Invader) (inv : Invader) (s : State)
    (hl : s.invaders = pre ++ inv :: post) :
    invaderBody f pre.length s =
      if (Invader.step f s.canvasWidth inv).y > s.canvasHeight then
        { s with invaders := pre ++ post,
                 invaderScore := s.invaderScore + (f + 1),
                 cues := s.cues ++ [Cue.chime2] }
      else { s with invaders := pre ++ Invader.step f s.canvasWidth inv :: post } := by
  unfold invaderBody
  rw [hl, getElem?_append_length]
  dsimp only
  rw [set_append_length]
  split_ifs with h1 h2 h2
  · simp only [play, eraseIdx_append_length]
    have := Invader.step_frameIndex f s.canvasWidth inv
    unfold Invader.step at this
    rw [this]
  · exact absurd h1 h2
  · exact absurd h2 h1
  · rfl

theorem singleton_append_replicate {α : Type} (n : ℕ) (a : α) :
    [a] ++ List.replicate n a = List.replicate n a ++ [a] := by
  rw [← List.replicate_succ', List.singleton_append, ← List.replicate_succ]

theorem revLoop_invaderBody (f : ℕ) (pre : List Invader) :
    ∀ (post : List Invader) (s : State), s.invaders = pre ++ post →
      revLoop (invaderBody f) pre.length s =
        { s with
          invaders :=
            (pre.map (Invader.step f s.canvasWidth)).filter
              (fun inv => decide (inv.y ≤ s.canvasHeight)) ++ post
          invaderScore := s.invaderScore +
            ((pre.map (Invader.step f s.canvasWidth)).filter
              (fun inv => decide (inv.y > s.canvasHeight))).length * (f + 1)
          cues := s.cues ++ List.replicate
            ((pre.map (Invader.step f s.canvasWidth)).filter
              (fun inv => decide (inv.y > s.canvasHeight))).length Cue.chime2 } := by
  induction pre using List.reverseRecOn with
  | nil =>
    intro post s hl
    simp [← hl]
  | append_singleton pre inv ih =>
    intro post s hl
    rw [List.append_assoc, List.singleton_append] at hl
    rw [List.length_append, List.length_singleton, revLoop_succ,
      invaderBody_at f pre post inv s hl]
    by_cases hy : (Invader.step f s.canvasWidth inv).y > s.canvasHeight
    · rw [if_pos hy, ih post _ rfl]
      have h1 : ¬ ((Invader.step f s.canvasWidth inv).y ≤ s.canvasHeight) := not_le.mpr hy
      simp only [List.map_append, List.map_cons, List.map_nil, List.filter_append,
        List.filter_cons, List.filter_nil, h1, hy, decide_True, decide_False, if_true,
        Bool.false_eq_true, if_false, List.append_nil, List.length_append,
        List.length_singleton, List.replicate_succ', List.append_assoc]
      congr 1
      · ring
      · rw [singleton_append_replicate]
    · rw [if_neg hy, ih (Invader.step f s.canvasWidth inv :: post) _ rfl]
      have h1 : (Invader.step f s.canvasWidth inv).y ≤ s.canvasHeight := not_lt.mp hy
      simp only [List.map_append, List.map_cons, List.map_nil, List.filter_append,
        List.filter_cons, List.filter_nil, h1, hy, decide_True, decide_False, if_true,
        Bool.false_eq_true, if_false, List.append_nil, List.append_assoc,
        List.singleton_append]

theorem updateAndDrawInvaders_eq (s : State) :
    updateAndDrawInvaders s =
      { s with
        invaders :=
          (s.invaders.map
            (Invader.step ((s.frameCount / invaderAnimSpeed) % invaderImages)
              s.canvasWidth)).filter
            (fun inv => decide (inv.y ≤ s.canvasHeight))
        invaderScore := s.invaderScore +
          ((s.invaders.map
            (Invader.step ((s.frameCount / invaderAnimSpeed) % invaderImages)
              s.canvasWidth)).filter
            (fun inv => decide (inv.y > s.canvasHeight))).length *
            ((s.frameCount / invaderAnimSpeed) % invaderImages + 1)
        cues := s.cues ++ List.replicate
          ((s.invaders.map
            (Invader.step ((s.frameCount / invaderAnimSpeed) % invaderImages)
              s.canvasWidth)).filter
            (fun inv => decide (inv.y > s.canvasHeight))).length Cue.chime2 } := by
  unfold updateAndDrawInvaders
  dsimp only
  rw [revLoop_invaderBody _ s.invaders [] s (by simp)]
  simp

/-! ## C12: invaders leaving through the bottom -/

theorem filter_gt_le_length (xs : List Invader) (h : ℚ) :
    (xs.filter (fun inv => decide (inv.y > h))).length +
      (xs.filter (fun inv => decide (inv.y ≤ h))).length = xs.length := by
  induction xs with
  | nil => rfl
  | cons x xs ih =>
    by_cases hx : x.y > h
    · have h2 : ¬ (x.y ≤ h) := not_le.mpr hx
      simp only [List.filter_cons, hx, h2, decide_True, decide_False, if_true,
        Bool.false_eq_true, if_false, List.length_cons]
      omega
    · have h2 : x.y ≤ h := not_lt.mp hx
      simp only [List.filter_cons, hx, h2, decide_True, decide_False, if_true,
        Bool.false_eq_true, if_false, List.length_cons]
      omega

/-- C12: for every `updateAndDrawInvaders` call with shared frame
`f = floor(frameCount / 80) mod 3`, the invaders after the call are the moved
invaders (`frameIndex := f`, then `update`) whose `y` does not exceed the field
height, in their original order: every invader whose `y` after its move
exceeds the field height is removed.  The invader score increases by exactly
`k * (f + 1)`, where `k` is the number of removed invaders (by 2 when one
invader leaves at frame index 1), and the player score is unchanged. -/
theorem updateAndDrawInvaders_effect (s : State) :
    (updateAndDrawInvaders s).invaders =
      (s.invaders.map (Invader.step ((s.frameCount / 80) % 3) s.canvasWidth)).filter
        (fun inv => decide (inv.y ≤ s.canvasHeight)) ∧
    (updateAndDrawInvaders s).invaderScore =
      s.invaderScore +
        ((s.invaders.map (Invader.step ((s.frameCount / 80) % 3) s.canvasWidth)).filter
          (fun inv => decide (inv.y > s.canvasHeight))).length *
          ((s.frameCount / 80) % 3 + 1) ∧
    ((s.invaders.map (Invader.step ((s.frameCount / 80) % 3) s.canvasWidth)).filter
        (fun inv => decide (inv.y > s.canvasHeight))).length +
      (updateAndDrawInvaders s).invaders.length = s.invaders.length ∧
    (((s.invaders.map (Invader.step ((s.frameCount / 80) % 3) s.canvasWidth)).filter
        (fun inv => decide (inv.y > s.canvasHeight))).length = 1 →
      (s.frameCount / 80) % 3 = 1 →
      (updateAndDrawInvaders s).invaderScore = s.invaderScore + 2) ∧
    (updateAndDrawInvaders s).score = s.score := by
  rw [updateAndDrawInvaders_eq]
  simp only [invaderAnimSpeed, invaderImages]
  refine ⟨trivial, trivial, (filter_gt_le_length _ _).trans (List.length_map _ _), ?_, trivial⟩
  intro h1 h2
  rw [h1, h2]

/-- Witness for `updateAndDrawInvaders_effect` at `exitScene`: one invader
leaves through the bottom while the shared frame index is 1, and the invader
score grows by 2. -/
theorem updateAndDrawInvaders_effect_witness :
    (updateAndDrawInvaders exitScene).invaderScore = exitScene.invaderScore + 2 ∧
    (updateAndDrawInvaders exitScene).invaders.length = 1 ∧
    (updateAndDrawInvaders exitScene).score = exitScene.score := by
  have hl : (Invader.step 1 800 leavingInvader).y > 600 := by
    norm_num [Invader.step, Invader.update_eq, leavingInvader]
  have hn : ¬ (Invader.step 1 800 newInvader).y > 600 := by
    norm_num [Invader.step, Invader.update_eq, newInvader, Invader.create, invaderSpeedY,
      invaderHeight]
  have hf : (exitScene.frameCount / 80) % 3 = 1 := by decide
  have hk : ((exitScene.invaders.map
      (Invader.step ((exitScene.frameCount / 80) % 3) exitScene.canvasWidth)).filter
        (fun inv => decide (inv.y > exitScene.canvasHeight))).length = 1 := by
    rw [hf]
    simp [exitScene, sampleState, List.filter_cons, hl, hn]
  obtain ⟨-, -, h3, h4, h5⟩ := updateAndDrawInvaders_effect exitScene
  refine ⟨h4 hk hf, ?_, h5⟩
  rw [hk] at h3
  have : exitScene.invaders.length = 2 := rfl
  omega

/-! ## C16: lifetime of an explosion -/

theorem stepExplosions_append (xs ys : List Explosion) :
    stepExplosions (xs ++ ys) = stepExplosions xs ++ stepExplosions ys := by
  simp [stepExplosions, List.filter_append]

theorem iterate_stepExplosions_append (t : ℕ) (xs ys : List Explosion) :
    stepExplosions^[t] (xs ++ ys) = stepExplosions^[t] xs ++ stepExplosions^[t] ys := by
  induction t generalizing xs ys with
  | zero => rfl
  | succ t ih =>
    rw [Function.iterate_succ_apply, Function.iterate_succ_apply, Function.iterate_succ_apply,
      stepExplosions_append, ih]

theorem iterate_stepExplosions_nil (t : ℕ) : stepExplosions^[t] [] = [] := by
  induction t with
  | zero => rfl
  | succ t ih => rw [Function.iterate_succ_apply]; exact ih

theorem iterate_updateAndDrawExplosions (t : ℕ) (s : State) :
    updateAndDrawExplosions^[t] s =
      { s with explosions := stepExplosions^[t] s.explosions } := by
  induction t generalizing s with
  | zero => rfl
  | succ t ih =>
    rw [Function.iterate_succ_apply, Function.iterate_succ_apply, ih,
      updateAndDrawExplosions_eq]
    rfl

theorem stepExplosions_fresh (ex : Explosion) (t : ℕ) (hf : ex.frameIndex = 0)
    (ht : ex.timer = 0) :
    stepExplosions^[t] [ex] =
      if t < 32 then [{ ex with frameIndex := t / 4, timer := t }] else [] := by
  induction t with
  | zero =>
    simp only [Function.iterate_zero, id_eq, Nat.zero_div]
    rw [if_pos (by decide)]
    cases ex
    simp only at hf ht
    subst hf ht
    rfl
  | succ t ih =>
    rw [Function.iterate_succ_apply', ih]
    by_cases h : t < 32
    · rw [if_pos h]
      simp only [stepExplosions, List.map_cons, List.map_nil, Explosion.update,
        explosionAnimSpeed, explosionFrameCount]
      by_cases h4 : (t + 1) % 4 = 0
      · have hd : (t + 1) / 4 = t / 4 + 1 := by omega
        simp only [h4, if_true, List.filter_cons, List.filter_nil]
        by_cases h32 : t + 1 < 32
        · have : t / 4 + 1 < 8 := by omega
          simp [h32, this, hd]
        · have : ¬ (t / 4 + 1 < 8) := by omega
          simp [h32, this]
      · have hd : (t + 1) / 4 = t / 4 := by omega
        simp only [h4, if_false, List.filter_cons, List.filter_nil]
        have h32 : t + 1 < 32 := by omega
        have : t / 4 < 8 := by omega
        simp [h32, this, hd]
    · rw [if_neg h, if_neg (by omega)]
      rfl

/-- C16: let an explosion with frame index 0 and timer 0 (freshly created) sit
anywhere in the collection.  After `t` calls of `updateAndDrawExplosions` the
collection is what the calls leave of the explosions before it, followed by
this explosion with timer `t` and frame index `t / 4` as long as `t < 32`, and
by nothing from the 32nd call on, followed by what the calls leave of the
explosions after it.  So the explosion is in the collection after every call
`t < 32` with frame index `floor(t / 4)`, which never decreases, and it is
removed in exactly the 32nd call; when it is the only explosion the collection
is that single explosion and then empty. -/
theorem fresh_explosion_lifetime (s : State) (pre post : List Explosion) (ex : Explosion)
    (t : ℕ) (hs : s.explosions = pre ++ ex :: post) (hf : ex.frameIndex = 0)
    (ht : ex.timer = 0) :
    (updateAndDrawExplosions^[t] s).explosions =
      (updateAndDrawExplosions^[t] { s with explosions := pre }).explosions ++
        (if t < 32 then [{ ex with frameIndex := t / 4, timer := t }] else []) ++
        (updateAndDrawExplosions^[t] { s with explosions := post }).explosions ∧
    (t < 32 →
      { ex with frameIndex := t / 4, timer := t } ∈
        (updateAndDrawExplosions^[t] s).explosions) ∧
    t / 4 ≤ (t + 1) / 4 ∧
    (pre = [] → post = [] →
      (updateAndDrawExplosions^[t] s).explosions =
        if t < 32 then [{ ex with frameIndex := t / 4, timer := t }] else []) := by
  have key : (updateAndDrawExplosions^[t] s).explosions =
      stepExplosions^[t] pre ++
        (if t < 32 then [{ ex with frameIndex := t / 4, timer := t }] else []) ++
        stepExplosions^[t] post := by
    rw [iterate_updateAndDrawExplosions, ← stepExplosions_fresh ex t hf ht]
    show stepExplosions^[t] s.explosions = _
    rw [hs, iterate_stepExplosions_append, ← List.singleton_append,
      iterate_stepExplosions_append, List.append_assoc]
  refine ⟨?_, ?_, ?_, ?_⟩
  · rw [key, iterate_updateAndDrawExplosions, iterate_updateAndDrawExplosions]
  · intro h
    rw [key, if_pos h]
    simp
  · omega
  · intro h1 h2
    rw [key, h1, h2, iterate_stepExplosions_nil]
    simp

/-- Witness for `fresh_explosion_lifetime` at `blastScene`: present with frame
index 7 after 31 calls, gone after 32. -/
theorem fresh_explosion_lifetime_witness :
    ({ Explosion.create 380 190 with frameIndex := 31 / 4, timer := 31 } ∈
      (updateAndDrawExplosions^[31] blastScene).explosions) ∧
    (updateAndDrawExplosions^[32] blastScene).explosions =
      (if 32 < 32 then [{ Explosion.create 380 190 with frameIndex := 32 / 4, timer := 32 }]
        else []) :=
  ⟨(fresh_explosion_lifetime blastScene [] [] (Explosion.create 380 190) 31 rfl rfl rfl).2.1
      (by decide),
    (fresh_explosion_lifetime blastScene [] [] (Explosion.create 380 190) 32 rfl rfl
      rfl).2.2.2 rfl rfl⟩

/-! ## What the parts of a frame tick leave alone -/

theorem hitBoss_frame (i : ℕ) (l : Laser) (s : State) :
    (hitBoss i l s).player = s.player ∧ (hitBoss i l s).canvasWidth = s.canvasWidth ∧
    (hitBoss i l s).canvasHeight = s.canvasHeight ∧ (hitBoss i l s).bossImg = s.bossImg ∧
    (hitBoss i l s).frameCount = s.frameCount ∧ (hitBoss i l s).invaders = s.invaders := by
  unfold hitBoss destroyBoss play
  dsimp only
  split_ifs
  · split
    · split_ifs <;> exact ⟨rfl, rfl, rfl, rfl, rfl, rfl⟩
    · exact ⟨rfl, rfl, rfl, rfl, rfl, rfl⟩
  · exact ⟨rfl, rfl, rfl, rfl, rfl, rfl⟩

theorem hitInvader_frame (i : ℕ) (l : Laser) (s : State) :
    (hitInvader i l s).player = s.player ∧ (hitInvader i l s).canvasWidth = s.canvasWidth ∧
    (hitInvader i l s).canvasHeight = s.canvasHeight ∧
    (hitInvader i l s).bossImg = s.bossImg ∧
    (hitInvader i l s).frameCount = s.frameCount := by
  rw [hitInvader_eq]
  split <;> exact ⟨rfl, rfl, rfl, rfl, rfl⟩

theorem collideLaser_frame (i : ℕ) (s : State) :
    (collideLaser i s).player = s.player ∧ (collideLaser i s).canvasWidth = s.canvasWidth ∧
    (collideLaser i s).canvasHeight = s.canvasHeight ∧
    (collideLaser i s).bossImg = s.bossImg ∧
    (collideLaser i s).frameCount = s.frameCount := by
  unfold collideLaser
  split
  · exact ⟨rfl, rfl, rfl, rfl, rfl⟩
  · rename_i l hl
    obtain ⟨a1, a2, a3, a4, a5, -⟩ := hitBoss_frame i l (hitInvader i l s)
    obtain ⟨b1, b2, b3, b4, b5⟩ := hitInvader_frame i l s
    exact ⟨a1.trans b1, a2.trans b2, a3.trans b3, a4.trans b4, a5.trans b5⟩

theorem revLoop_collideLaser_frame (n : ℕ) (s : State) :
    (revLoop collideLaser n s).player = s.player ∧
    (revLoop collideLaser n s).canvasWidth = s.canvasWidth ∧
    (revLoop collideLaser n s).canvasHeight = s.canvasHeight ∧
    (revLoop collideLaser n s).bossImg = s.bossImg ∧
    (revLoop collideLaser n s).frameCount = s.frameCount :=
  revLoop_invariant
    (fun t => t.player = s.player ∧ t.canvasWidth = s.canvasWidth ∧
      t.canvasHeight = s.canvasHeight ∧ t.bossImg = s.bossImg ∧ t.frameCount = s.frameCount)
    collideLaser
    (fun i t ht => by
      obtain ⟨a1, a2, a3, a4, a5⟩ := collideLaser_frame i t
      exact ⟨a1.trans ht.1, a2.trans ht.2.1, a3.trans ht.2.2.1, a4.trans ht.2.2.2.1,
        a5.trans ht.2.2.2.2⟩)
    n s ⟨rfl, rfl, rfl, rfl, rfl⟩

theorem checkCollisions_frame (s : State) :
    (checkCollisions s).player = s.player ∧
    (checkCollisions s).canvasWidth = s.canvasWidth ∧
    (checkCollisions s).canvasHeight = s.canvasHeight ∧
    (checkCollisions s).bossImg = s.bossImg ∧
    (checkCollisions s).frameCount = s.frameCount := by
  have h := revLoop_collideLaser_frame s.lasers.length s
  unfold checkCollisions
  dsimp only
  split_ifs <;> exact h

theorem drawAll_frame (s : State) :
    (drawAll s).player = s.player ∧ (drawAll s).canvasWidth = s.canvasWidth ∧
    (drawAll s).canvasHeight = s.canvasHeight ∧ (drawAll s).isOver = s.isOver ∧
    (drawAll s).boss = s.boss ∧ (drawAll s).bossSpawned = s.bossSpawned ∧
    (drawAll s).score = s.score ∧ (drawAll s).frameCount = s.frameCount ∧
    (drawAll s).frameRequests = s.frameRequests ∧ (drawAll s).nextHandle = s.nextHandle := by
  simp [drawAll, updateAndDrawExplosions_eq, updateAndDrawInvaders_eq, updateAndDrawLasers_eq]

theorem spawnBoss_frame (s : State) :
    (spawnBoss s).player = s.player ∧ (spawnBoss s).canvasWidth = s.canvasWidth ∧
    (spawnBoss s).canvasHeight = s.canvasHeight ∧ (spawnBoss s).isOver = s.isOver ∧
    (spawnBoss s).score = s.score ∧ (spawnBoss s).invaders = s.invaders := by
  unfold spawnBoss
  split_ifs <;> exact ⟨rfl, rfl, rfl, rfl, rfl, rfl⟩

theorem enterOver_frame (s : State) :
    (enterOver s).player = s.player ∧ (enterOver s).canvasWidth = s.canvasWidth ∧
    (enterOver s).isOver = true ∧ (enterOver s).boss = s.boss ∧
    (enterOver s).bossSpawned = s.bossSpawned := by
  simp only [enterOver, clearInterval, play, cancelAnimationFrame]
  split <;> split <;> exact ⟨rfl, rfl, rfl, rfl, rfl⟩

theorem updateAndDrawBoss_eq (s : State) :
    updateAndDrawBoss s =
      if s.bossSpawned = true then
        match s.boss with
        | none => s
        | some b0 =>
          if playerHitsBoss s.player (b0.update s.player s.canvasWidth) = true then
            enterOver { s with boss := some (b0.update s.player s.canvasWidth) }
          else { s with boss := some (b0.update s.player s.canvasWidth) }
      else s := by
  unfold updateAndDrawBoss
  cases s.bossSpawned <;> simp

theorem updateAndDrawBoss_frame (s : State) :
    (updateAndDrawBoss s).player = s.player ∧
    (updateAndDrawBoss s).canvasWidth = s.canvasWidth := by
  rw [updateAndDrawBoss_eq]
  split_ifs
  · split
    · exact ⟨rfl, rfl⟩
    · split_ifs
      · exact ⟨(enterOver_frame _).1, (enterOver_frame _).2.1⟩
      · exact ⟨rfl, rfl⟩
  · exact ⟨rfl, rfl⟩

theorem loop_running (s : State) (h : s.isOver = false) :
    loop s =
      requestAnimationFrame (updateAndDrawBoss (drawAll (spawnBoss (checkCollisions
        (handlePlayerInput { s with frameCount := s.frameCount + 1 }))))) := by
  unfold loop
  rw [if_neg (by simp [h])]

theorem loop_player (s : State) (h : s.isOver = false) :
    (loop s).player =
      (handlePlayerInput { s with frameCount := s.frameCount + 1 }).player ∧
    (loop s).canvasWidth = s.canvasWidth := by
  rw [loop_running s h]
  refine ⟨?_, ?_⟩
  · simp only [requestAnimationFrame]
    rw [(updateAndDrawBoss_frame _).1, (drawAll_frame _).1, (spawnBoss_frame _).1,
      (checkCollisions_frame _).1]
  · simp only [requestAnimationFrame]
    rw [(updateAndDrawBoss_frame _).2, (drawAll_frame _).2.1, (spawnBoss_frame _).2.1,
      (checkCollisions_frame _).2.1, handlePlayerInput_eq]

/-! ## C15: the player stays inside the field -/

theorem clampedX_bounds (s : State) (hw : s.player.width ≤ s.canvasWidth) :
    0 ≤ clampedX s ∧ clampedX s ≤ s.canvasWidth - s.player.width := by
  unfold clampedX
  dsimp only
  split_ifs with h1 h2 h2
  · exact ⟨by linarith, le_refl _⟩
  · exact ⟨le_refl _, by linarith⟩
  · exact ⟨by linarith, le_refl _⟩
  · exact ⟨by linarith, by linarith⟩

/-- C15: for every state whose field width is at least the player's width
(any starting `x`, any held-key state), after `handlePlayerInput` the player
satisfies `0 ≤ x ≤ W - playerWidth`, the width being unchanged; and after a
frame tick that starts with the over-flag false the player satisfies the same
bounds. -/
theorem player_within_field (s : State) (hw : s.player.width ≤ s.canvasWidth) :
    0 ≤ (handlePlayerInput s).player.x ∧
    (handlePlayerInput s).player.x ≤ s.canvasWidth - s.player.width ∧
    (handlePlayerInput s).player.width = s.player.width ∧
    (s.isOver = false →
      0 ≤ (loop s).player.x ∧ (loop s).player.x ≤ s.canvasWidth - s.player.width ∧
      (loop s).player.width = s.player.width) := by
  have h := clampedX_bounds s hw
  refine ⟨by rw [handlePlayerInput_eq]; exact h.1, by rw [handlePlayerInput_eq]; exact h.2,
    by rw [handlePlayerInput_eq], ?_⟩
  intro ho
  rw [(loop_player s ho).1, handlePlayerInput_eq]
  have h2 := clampedX_bounds { s with frameCount := s.frameCount + 1 } hw
  exact ⟨h2.1, h2.2, rfl⟩

/-- Witness for `player_within_field` at `atLeftEdge` (left key held at
`x = 0`). -/
theorem player_within_field_witness :
    0 ≤ (handlePlayerInput atLeftEdge).player.x ∧
    (handlePlayerInput atLeftEdge).player.x ≤
      atLeftEdge.canvasWidth - atLeftEdge.player.width ∧
    (handlePlayerInput atLeftEdge).player.width = atLeftEdge.player.width ∧
    (atLeftEdge.isOver = false →
      0 ≤ (loop atLeftEdge).player.x ∧
      (loop atLeftEdge).player.x ≤ atLeftEdge.canvasWidth - atLeftEdge.player.width ∧
      (loop atLeftEdge).player.width = atLeftEdge.player.width) :=
  player_within_field atLeftEdge (by norm_num [atLeftEdge, sampleState, homePlayer])

/-! ## C13 and C14: the over-flag -/

theorem loop_over (s : State) (h : s.isOver = true) :
    loop s = clearInterval (play Cue.gameover (cancelAnimationFrame s)) := by
  unfold loop
  rw [if_pos h]

theorem loop_over_fields (s : State) (h : s.isOver = true) :
    (loop s).isOver = true ∧ (loop s).frameCount = s.frameCount ∧
    (loop s).score = s.score ∧ (loop s).invaderScore = s.invaderScore ∧
    (loop s).player = s.player ∧ (loop s).lasers = s.lasers ∧
    (loop s).invaders = s.invaders ∧ (loop s).explosions = s.explosions ∧
    (loop s).boss = s.boss ∧ (loop s).bossSpawned = s.bossSpawned ∧
    (loop s).nextHandle = s.nextHandle ∧
    (loop s).frameRequests.Sublist s.frameRequests := by
  rw [loop_over s h]
  simp only [clearInterval, play, cancelAnimationFrame]
  split <;> split <;>
    first
      | exact ⟨h, rfl, rfl, rfl, rfl, rfl, rfl, rfl, rfl, rfl, rfl, List.erase_sublist _ _⟩
      | exact ⟨h, rfl, rfl, rfl, rfl, rfl, rfl, rfl, rfl, rfl, rfl, List.Sublist.refl _⟩

/-- C13: from a state whose over-flag is true, every operation other than
`reset` leads to a state whose over-flag is true: a frame tick (`loop`, also
as the frame callback `fireFrame`), `spawnInvader` (also as the interval
callback `fireSpawn`), `shoot`, `onResize`, the deferred boss-defeat callback
(also as the timeout `fireDefeatTimeout`), `keydown`, and `keyup` of any key
but `Enter`.  `reset`, which `keyup` of `Enter` runs, sets the flag to
false. -/
theorem over_flag_monotone (s : State) (h : s.isOver = true) :
    (loop s).isOver = true ∧
    (∀ id, (fireFrame id s).isOver = true) ∧
    (∀ r, (spawnInvader r s).isOver = true) ∧
    (∀ r, (fireSpawn r s).isOver = true) ∧
    (shoot s).isOver = true ∧
    (∀ w ht, (onResize w ht s).isOver = true) ∧
    (bossDefeatCallback s).isOver = true ∧
    (fireDefeatTimeout s).isOver = true ∧
    (∀ k, (keydown k s).isOver = true) ∧
    (∀ k, k ≠ "Enter" → (keyup k s).isOver = true) ∧
    keyup "Enter" s = reset s ∧
    (reset s).isOver = false := by
  have h1 : (loop s).isOver = true := (loop_over_fields s h).1
  have h2 : ∀ id, (fireFrame id s).isOver = true := by
    intro id
    unfold fireFrame
    split_ifs
    · exact (loop_over_fields { s with frameRequests := s.frameRequests.erase id } h).1
    · exact h
  have h3 : ∀ r, (spawnInvader r s).isOver = true := by
    intro r
    simp [spawnInvader, h]
  have h4 : ∀ r, (fireSpawn r s).isOver = true := by
    intro r
    unfold fireSpawn
    split_ifs
    · exact h
    · exact h3 r
  have h5 : (shoot s).isOver = true := by
    simp [shoot, play, h]
  have h6 : ∀ w ht, (onResize w ht s).isOver = true := by
    intro w ht
    unfold onResize
    dsimp only
    cases hb : s.boss <;> simp [h]
  have h7 : (bossDefeatCallback s).isOver = true := by
    unfold bossDefeatCallback
    exact (enterOver_frame s).2.2.1
  have h8 : (fireDefeatTimeout s).isOver = true := by
    unfold fireDefeatTimeout bossDefeatCallback
    split_ifs
    · exact h
    · exact (enterOver_frame { s with defeatTimeouts := s.defeatTimeouts - 1 }).2.2.1
  have h9 : ∀ k, (keydown k s).isOver = true := by
    intro k
    simp [keydown, h]
  have h10 : ∀ k, k ≠ "Enter" → (keyup k s).isOver = true := by
    intro k hk
    simp [keyup, h, hk]
  have h11 : keyup "Enter" s = reset s := by
    simp [keyup, h]
  have h12 : (reset s).isOver = false := by
    simp [reset_eq, handlePlayerInput_eq, requestAnimationFrame, resetCore, setSpawnInterval]
  exact ⟨h1, h2, h3, h4, h5, h6, h7, h8, h9, h10, h11, h12⟩

/-- Witness for `over_flag_monotone` at `overHeldLeft`. -/
theorem over_flag_monotone_witness :
    (loop overHeldLeft).isOver = true ∧ (reset overHeldLeft).isOver = false :=
  ⟨(over_flag_monotone overHeldLeft rfl).1,
    (over_flag_monotone overHeldLeft rfl).2.2.2.2.2.2.2.2.2.2.2⟩

/-- C14: when the over-flag is true, a frame tick (`loop`) leaves the frame
counter, both scores, the player, the laser, invader and explosion
collections, the boss and its spawned-flag unchanged, issues no new handle and
leaves no frame request that was not outstanding before (it schedules no
tick); a spawn-timer firing (`spawnInvader`) leaves the whole state
unchanged. -/
theorem over_state_is_inert (s : State) (h : s.isOver = true) :
    (loop s).frameCount = s.frameCount ∧
    (loop s).score = s.score ∧ (loop s).invaderScore = s.invaderScore ∧
    (loop s).player = s.player ∧ (loop s).lasers = s.lasers ∧
    (loop s).invaders = s.invaders ∧ (loop s).explosions = s.explosions ∧
    (loop s).boss = s.boss ∧ (loop s).bossSpawned = s.bossSpawned ∧
    (loop s).nextHandle = s.nextHandle ∧
    (loop s).frameRequests.Sublist s.frameRequests ∧
    (∀ r, spawnInvader r s = s) := by
  obtain ⟨-, a1, a2, a3, a4, a5, a6, a7, a8, a9, a10, a11⟩ := loop_over_fields s h
  have hsp : ∀ r, spawnInvader r s = s := by
    intro r
    simp [spawnInvader, h]
  exact ⟨a1, a2, a3, a4, a5, a6, a7, a8, a9, a10, a11, hsp⟩

/-- Witness for `over_state_is_inert` at `overStaleTimeout`. -/
theorem over_state_is_inert_witness :
    (loop overStaleTimeout).frameCount = overStaleTimeout.frameCount ∧
    (loop overStaleTimeout).frameRequests.Sublist overStaleTimeout.frameRequests ∧
    spawnInvader (1 / 2) overStaleTimeout = overStaleTimeout :=
  ⟨(over_state_is_inert overStaleTimeout rfl).1,
    (over_state_is_inert overStaleTimeout rfl).2.2.2.2.2.2.2.2.2.2.1,
    (over_state_is_inert overStaleTimeout rfl).2.2.2.2.2.2.2.2.2.2.2 (1 / 2)⟩

/-! ## C17: when a frame tick ends the game -/

theorem playerCollides_eq_any (p : Player) (invs : List Invader) (n : ℕ) :
    playerCollides p invs n = (invs.take n).any (playerHitsInvader p) := by
  induction n with
  | zero => simp
  | succ n ih =>
    rw [List.take_succ]
    show (match invs[n]? with
      | some inv => if playerHitsInvader p inv then true else playerCollides p invs n
      | none => playerCollides p invs n) = _
    cases hx : invs[n]? with
    | none => simp [ih]
    | some inv =>
      cases hh : playerHitsInvader p inv <;> simp [ih, hh]

theorem playerCollides_iff (p : Player) (invs : List Invader) :
    playerCollides p invs invs.length = true ↔
      ∃ inv ∈ invs, playerHitsInvader p inv = true := by
  rw [playerCollides_eq_any, List.take_length, List.any_eq_true]

theorem checkCollisions_isOver (s : State) :
    (checkCollisions s).isOver =
      (s.isOver || playerCollides s.player (checkCollisions s).invaders
        (checkCollisions s).invaders.length) := by
  have hp := (revLoop_collideLaser_frame s.lasers.length s).1
  unfold checkCollisions
  dsimp only
  rw [hp]
  split_ifs with hc
  · simp [hc]
  · simp [hc, revLoop_collideLaser_isOver]

theorem updateAndDrawBoss_isOver (s : State) :
    (updateAndDrawBoss s).isOver = true ↔
      s.isOver = true ∨
        ∃ b, s.bossSpawned = true ∧ s.boss = some b ∧
          playerHitsBoss s.player (b.update s.player s.canvasWidth) = true := by
  rw [updateAndDrawBoss_eq]
  by_cases hs : s.bossSpawned = true
  · rw [if_pos hs]
    cases hb : s.boss with
    | none => simp
    | some b =>
      simp only
      by_cases hh : playerHitsBoss s.player (b.update s.player s.canvasWidth) = true
      · rw [if_pos hh]
        simp only [(enterOver_frame _).2.2.1, true_iff]
        exact Or.inr ⟨b, hs, rfl, hh⟩
      · rw [if_neg hh]
        constructor
        · intro h; exact Or.inl h
        · rintro (h | ⟨b1, -, hb1, hh1⟩)
          · exact h
          · cases hb1
            exact absurd hh1 hh
  · rw [if_neg hs]
    constructor
    · intro h; exact Or.inl h
    · rintro (h | ⟨b1, hs1, -⟩)
      · exact h
      · exact absurd hs1 hs

/-- C17: for every frame tick that starts with the over-flag false, the
over-flag is true after the tick if and only if some invader remaining after
the projectile pass of `checkCollisions` overlaps the player's box (at the
position `handlePlayerInput` left), or the boss that `updateAndDrawBoss` finds
(present with its spawned-flag set, possibly created in this very tick),
after its `update`, overlaps the player's box; the boss's phase is not
consulted. -/
theorem tick_ends_game_iff (s : State) (h : s.isOver = false) :
    (loop s).isOver = true ↔
      (∃ inv ∈ (checkCollisions
            (handlePlayerInput { s with frameCount := s.frameCount + 1 })).invaders,
          playerHitsInvader
            (handlePlayerInput { s with frameCount := s.frameCount + 1 }).player inv = true) ∨
      (∃ b,
        (spawnBoss (checkCollisions
          (handlePlayerInput { s with frameCount := s.frameCount + 1 }))).bossSpawned = true ∧
        (spawnBoss (checkCollisions
          (handlePlayerInput { s with frameCount := s.frameCount + 1 }))).boss = some b ∧
        playerHitsBoss (handlePlayerInput { s with frameCount := s.frameCount + 1 }).player
          (b.update (handlePlayerInput { s with frameCount := s.frameCount + 1 }).player
            s.canvasWidth) = true) := by
  rw [loop_running s h]
  have hreq : ∀ t : State, (requestAnimationFrame t).isOver = t.isOver := fun _ => rfl
  rw [hreq, updateAndDrawBoss_isOver]
  obtain ⟨d1, d2, -, d4, d5, d6, -⟩ := drawAll_frame (spawnBoss (checkCollisions
    (handlePlayerInput { s with frameCount := s.frameCount + 1 })))
  obtain ⟨p1, p2, -, p4, -, -⟩ := spawnBoss_frame (checkCollisions
    (handlePlayerInput { s with frameCount := s.frameCount + 1 }))
  obtain ⟨c1, c2, -⟩ := checkCollisions_frame
    (handlePlayerInput { s with frameCount := s.frameCount + 1 })
  have hin : (handlePlayerInput { s with frameCount := s.frameCount + 1 }).isOver = false := by
    rw [handlePlayerInput_eq]; exact h
  have hw : (handlePlayerInput { s with frameCount := s.frameCount + 1 }).canvasWidth
      = s.canvasWidth := by
    rw [handlePlayerInput_eq]
  rw [d1, d2, d4, d5, d6, p1, p2, p4, c1, c2, hw, checkCollisions_isOver, hin,
    Bool.false_or, playerCollides_iff]

/-- Witness for `tick_ends_game_iff` at `touchdown`: the invader overlaps the
player, so the tick sets the over-flag. -/
theorem tick_ends_game_iff_witness :
    touchdown.isOver = false ∧ (loop touchdown).isOver = true := by
  refine ⟨rfl, ?_⟩
  have hin : handlePlayerInput { touchdown with frameCount := touchdown.frameCount + 1 } =
      { touchdown with frameCount := touchdown.frameCount + 1 } := by
    rw [handlePlayerInput_eq]
    simp [clampedX, shiftedX, touchdown, sampleState, homePlayer]
    norm_num
  have hinv : (checkCollisions
      { touchdown with frameCount := touchdown.frameCount + 1 }).invaders =
      [landedInvader] := by
    rw [(checkCollisions_fields _).2.1]
    rfl
  have hhit : playerHitsInvader homePlayer landedInvader = true := by
    simp [playerHitsInvader, aabb, homePlayer, landedInvader]
    norm_num
  refine (tick_ends_game_iff touchdown rfl).mpr (Or.inl ?_)
  rw [hin, hinv]
  exact ⟨landedInvader, by simp, hhit⟩

/-! ## C18: when a frame tick creates the boss -/

theorem Boss.update_create_sample :
    (Boss.create 800 600 noImage).update homePlayer 800 = freshBoss := by
  rw [Boss.create_sample]
  simp [Boss.update, freshBoss]
  norm_num

theorem updateAndDrawBoss_boss (s : State) (b : Boss) (hs : s.bossSpawned = true)
    (hb : s.boss = some b) :
    (updateAndDrawBoss s).bossSpawned = true ∧
    (updateAndDrawBoss s).boss = some (b.update s.player s.canvasWidth) := by
  rw [updateAndDrawBoss_eq, if_pos hs, hb]
  dsimp only
  split_ifs
  · obtain ⟨-, -, -, e4, e5⟩ :=
      enterOver_frame { s with boss := some (b.update s.player s.canvasWidth) }
    exact ⟨e5.trans hs, e4⟩
  · exact ⟨hs, rfl⟩

theorem afterCollisions_frame (s : State) :
    (afterCollisions s).canvasWidth = s.canvasWidth ∧
    (afterCollisions s).canvasHeight = s.canvasHeight ∧
    (afterCollisions s).bossImg = s.bossImg := by
  obtain ⟨-, c2, c3, c4, -⟩ := checkCollisions_frame
    (handlePlayerInput { s with frameCount := s.frameCount + 1 })
  unfold afterCollisions
  rw [c2, c3, c4, handlePlayerInput_eq]
  exact ⟨rfl, rfl, rfl⟩

theorem loop_afterCollisions (s : State) (h : s.isOver = false) :
    loop s =
      requestAnimationFrame (updateAndDrawBoss (drawAll (spawnBoss (afterCollisions s)))) :=
  loop_running s h

theorem requestAnimationFrame_frame (t : State) :
    (requestAnimationFrame t).player = t.player ∧
    (requestAnimationFrame t).boss = t.boss ∧
    (requestAnimationFrame t).bossSpawned = t.bossSpawned :=
  ⟨rfl, rfl, rfl⟩

theorem spawnBoss_skip (t : State) (ht : ¬ (t.bossSpawned = false ∧ t.score > 9)) :
    spawnBoss t = t := by
  unfold spawnBoss
  rw [if_neg]
  intro hc
  exact ht ⟨by simpa using hc.1, hc.2⟩

theorem spawnBoss_create (t : State) (ht : t.bossSpawned = false ∧ t.score > 9) :
    spawnBoss t =
      { t with bossSpawned := true,
               boss := some (Boss.create t.canvasWidth t.canvasHeight t.bossImg) } := by
  unfold spawnBoss
  rw [if_pos ⟨by simp [ht.1], ht.2⟩]

/-- C18: in a frame tick that starts with the over-flag false, let
`afterCollisions s` be the state after the tick's collision pass.  The tick
creates the boss exactly when in that state the spawned-flag is false and the
player score is greater than 9: then the boss-spawn step sets the spawned-flag
and stores `new Boss(...)`, which is in the Descending phase, and after the
tick the spawned-flag is true and the boss is that boss after one `update`;
otherwise the boss-spawn step changes nothing, in particular at a score of
exactly 9. -/
theorem tick_creates_boss_iff (s : State) (h : s.isOver = false) :
    ((afterCollisions s).bossSpawned = false ∧ (afterCollisions s).score > 9 →
      (spawnBoss (afterCollisions s)).bossSpawned = true ∧
      (spawnBoss (afterCollisions s)).boss =
        some (Boss.create s.canvasWidth s.canvasHeight s.bossImg) ∧
      (Boss.create s.canvasWidth s.canvasHeight s.bossImg).arrived = false ∧
      (loop s).bossSpawned = true ∧
      (loop s).boss =
        some ((Boss.create s.canvasWidth s.canvasHeight s.bossImg).update (loop s).player
          s.canvasWidth)) ∧
    (¬ ((afterCollisions s).bossSpawned = false ∧ (afterCollisions s).score > 9) →
      spawnBoss (afterCollisions s) = afterCollisions s) ∧
    ((afterCollisions s).score = 9 → spawnBoss (afterCollisions s) = afterCollisions s) := by
  refine ⟨?_, spawnBoss_skip _, fun h9 => spawnBoss_skip _ (fun hc => by omega)⟩
  intro hc
  obtain ⟨a1, a2, a3⟩ := afterCollisions_frame s
  have hsp := spawnBoss_create (afterCollisions s) hc
  rw [a1, a2, a3] at hsp
  have hcr : (Boss.create s.canvasWidth s.canvasHeight s.bossImg).arrived = false := rfl
  refine ⟨by rw [hsp], by rw [hsp], hcr, ?_⟩
  obtain ⟨d1, d2, -, -, d5, d6, -⟩ := drawAll_frame (spawnBoss (afterCollisions s))
  have hb := updateAndDrawBoss_boss (drawAll (spawnBoss (afterCollisions s)))
    (Boss.create s.canvasWidth s.canvasHeight s.bossImg)
    (by rw [d6, hsp]) (by rw [d5, hsp])
  have hcw : (drawAll (spawnBoss (afterCollisions s))).canvasWidth = s.canvasWidth := by
    rw [d2, (spawnBoss_frame _).2.1, a1]
  have hpl : (loop s).player = (drawAll (spawnBoss (afterCollisions s))).player := by
    rw [loop_afterCollisions s h, (requestAnimationFrame_frame _).1,
      (updateAndDrawBoss_frame (drawAll (spawnBoss (afterCollisions s)))).1]
  rw [hcw] at hb
  rw [hpl, loop_afterCollisions s h, (requestAnimationFrame_frame _).2.1,
    (requestAnimationFrame_frame _).2.2]
  exact ⟨hb.1, hb.2⟩

/-- Witness for `tick_creates_boss_iff`: at `thresholdScene` (score 8) the
laser destroys an invader showing frame 2, the score becomes 11 and the tick
creates the boss, which is Descending after the tick; at `scoreNine` the
boss-spawn step changes nothing. -/
theorem tick_creates_boss_iff_witness :
    (afterCollisions thresholdScene).score = 11 ∧
    (loop thresholdScene).bossSpawned = true ∧
    (loop thresholdScene).boss = some freshBoss ∧
    freshBoss.arrived = false ∧
    spawnBoss (afterCollisions scoreNine) = afterCollisions scoreNine := by
  have hin : handlePlayerInput { thresholdScene with frameCount := thresholdScene.frameCount + 1 }
      = { thresholdScene with frameCount := thresholdScene.frameCount + 1 } := by
    rw [handlePlayerInput_eq]
    simp [clampedX, shiftedX, thresholdScene, sampleState, homePlayer]
    norm_num
  have hmi : laserHitsInvader midLaser frameTwoInvader = true := by
    simp [laserHitsInvader, aabb, midLaser, frameTwoInvader]
    norm_num
  have hac : (afterCollisions thresholdScene).score = 11 ∧
      (afterCollisions thresholdScene).bossSpawned = false := by
    unfold afterCollisions
    rw [hin]
    have hfi : frameTwoInvader.frameIndex = 2 := rfl
    simp [checkCollisions, thresholdScene, sampleState, revLoop_one, collideLaser, hitInvader,
      findHitInvader_one, hmi, hitBoss, play, hfi]
  have hpl : (loop thresholdScene).player = homePlayer := by
    rw [(loop_player thresholdScene rfl).1, hin]
    rfl
  have hin9 : handlePlayerInput { scoreNine with frameCount := scoreNine.frameCount + 1 }
      = { scoreNine with frameCount := scoreNine.frameCount + 1 } := by
    rw [handlePlayerInput_eq]
    simp [clampedX, shiftedX, scoreNine, sampleState, homePlayer]
    norm_num
  have h9 : (afterCollisions scoreNine).score = 9 := by
    unfold afterCollisions
    rw [hin9, checkCollisions_empty _ rfl rfl]
    rfl
  obtain ⟨-, -, -, w4, w5⟩ :=
    (tick_creates_boss_iff thresholdScene rfl).1 ⟨hac.2, by rw [hac.1]; decide⟩
  refine ⟨hac.1, w4, ?_, rfl, (tick_creates_boss_iff scoreNine rfl).2.2 h9⟩
  rw [w5, hpl]
  exact congrArg some Boss.update_create_sample

/-! ## C19: how many targets one projectile scores against -/

/-- C19 fails on the code at `doubleHit`: the single laser destroys the
invader (score 12 to 14) and, in the same loop iteration, also raises the
boss's hit counter from 3 to 4, so one removed invader plus one boss hit
exceed the one projectile removed. -/
theorem one_laser_two_targets :
    doubleHit.lasers = [midLaser] ∧
    doubleHit.invaders = [crossingInvader] ∧
    doubleHit.boss = some homingBoss ∧
    homingBoss.hitCount = some 3 ∧
    (checkCollisions doubleHit).lasers = [] ∧
    (checkCollisions doubleHit).invaders = [] ∧
    (checkCollisions doubleHit).score = 14 ∧
    (checkCollisions doubleHit).boss = some { homingBoss with hitCount := some 4 } ∧
    (doubleHit.invaders.length - (checkCollisions doubleHit).invaders.length) + (4 - 3) >
      doubleHit.lasers.length - (checkCollisions doubleHit).lasers.length := by
  have hmi : laserHitsInvader midLaser crossingInvader = true := by
    simp [laserHitsInvader, aabb, midLaser, crossingInvader]
    norm_num
  have hmb : laserHitsBoss midLaser homingBoss = true := by
    simp [laserHitsBoss, aabb, midLaser, homingBoss, woundedBoss]
    norm_num
  have hfi : crossingInvader.frameIndex = 1 := rfl
  have h0 : (collideLaser 0 doubleHit).lasers = [] ∧
      (collideLaser 0 doubleHit).invaders = [] ∧
      (collideLaser 0 doubleHit).score = 14 ∧
      (collideLaser 0 doubleHit).boss = some { homingBoss with hitCount := some 4 } := by
    simp [collideLaser, doubleHit, hitInvader, findHitInvader_one, hmi, hitBoss, hmb, play,
      hfi]
    simp [homingBoss, woundedBoss]
  have hc : (checkCollisions doubleHit).lasers = (collideLaser 0 doubleHit).lasers ∧
      (checkCollisions doubleHit).invaders = (collideLaser 0 doubleHit).invaders ∧
      (checkCollisions doubleHit).score = (collideLaser 0 doubleHit).score ∧
      (checkCollisions doubleHit).boss = (collideLaser 0 doubleHit).boss := by
    have hlen : doubleHit.lasers.length = 1 := rfl
    unfold checkCollisions
    simp only [hlen, revLoop_one]
    split_ifs <;> exact ⟨rfl, rfl, rfl, rfl⟩
  refine ⟨rfl, rfl, rfl, rfl, hc.1.trans h0.1, hc.2.1.trans h0.2.1, hc.2.2.1.trans h0.2.2.1,
    hc.2.2.2.trans h0.2.2.2, ?_⟩
  rw [hc.1.trans h0.1, hc.2.1.trans h0.2.1]
  decide

end UfoGame
